import Mathlib

/-!
# CollegeDataVisualization: the tile map viewport engine and the dashboard data

A shallow embedding of `src/components/TileMap.jsx` and of `processData`, `stats`,
`filters` and `filteredColleges` in `src/App.jsx`.

* JavaScript numbers that the program only compares with constants (attendance,
  acceptance rate, coordinates in the marker guard) are exact rationals, with `NaN`,
  `null` and `undefined` as separate values. The rate average adds and divides them, so
  it is embedded in double precision: each operation is the exact one followed by
  rounding to the nearest double.
* The projection uses transcendental functions, so the projection, the viewport, the
  tile grid and the placement of markers are embedded over the real numbers; these are
  the only definitions that are not executable. The marker pipeline projects latitudes
  that nothing bounds, so its projection also carries the NaN of a latitude beyond a pole.
* React state is explicit: every handler is a function from the state it reads to the
  state it sets, and a render is a function of the state and the size of the surface.
-/

namespace TileMap

/-! ## JavaScript values -/

/-- A field of a record as the program reads it: absent, null, the number NaN,
or a finite number. -/
inductive JSValue where
  | undefined : JSValue
  | null : JSValue
  | nan : JSValue
  | num (q : ℚ) : JSValue
  deriving DecidableEq

namespace JSValue

/-- ToNumber of the language: `none` stands for NaN. -/
def toNumber : JSValue → Option ℚ
  | undefined => none
  | null => some 0
  | nan => none
  | num q => some q

/-- Truthiness, as tested by `!v` and `v ? a : b`: undefined, null, NaN and 0 are falsy. -/
def truthy : JSValue → Bool
  | num q => decide (q ≠ 0)
  | _ => false

/-- The comparison `v >= k` against a numeric constant; false when `v` converts to NaN. -/
def ge (v : JSValue) (k : ℚ) : Bool :=
  match v.toNumber with
  | some q => decide (k ≤ q)
  | none => false

/-- The comparison `v < k` against a numeric constant; false when `v` converts to NaN. -/
def lt (v : JSValue) (k : ℚ) : Bool :=
  match v.toNumber with
  | some q => decide (q < k)
  | none => false

/-- Strict equality `v === 0`. -/
def strictEqZero (v : JSValue) : Bool := decide (v = num 0)

/-- The conversion `Number(v)`. -/
def toNumberValue (v : JSValue) : JSValue :=
  match v.toNumber with
  | some q => num q
  | none => nan

end JSValue

/-- An entity of the data set, with the fields the map reads. -/
structure College where
  id : String
  attending : JSValue
  accepted : JSValue
  rate : JSValue
  lat : JSValue
  lng : JSValue
  deriving DecidableEq

/-! ## Category bucketing -/

/-- Embeds `getCategoryKey` (TileMap.jsx, lines 58-74). -/
def getCategoryKey (college : College) (mode : String) : String :=
  if mode = "attending" then
    if college.attending.ge 50 then "HIGH"
    else if college.attending.ge 20 then "MED"
    else if college.attending.ge 10 then "LOW"
    else if college.attending.ge 5 then "VERY_LOW"
    else "MIN"
  else
    if !college.rate.truthy then "UNKNOWN"
    else if college.rate.lt 5 then "EXTREME"
    else if college.rate.lt 10 then "VERY_LOW"
    else if college.rate.lt 20 then "LOW"
    else if college.rate.lt 50 then "SELECTIVE"
    else if college.rate.lt 80 then "MODERATE"
    else "OPEN"

/-- The coordinate guard at the head of the marker pipeline (TileMap.jsx, line 221):
true when the entity is skipped. -/
def skipsCoordinate (college : College) : Bool :=
  !college.lat.truthy || !college.lng.truthy
    || (college.lat.strictEqZero && college.lng.strictEqZero)

/-! ## Projection -/

/-- The side of a tile in pixels. -/
def TILE_SIZE : ℝ := 256

/-- A point of world pixel space or of the screen. -/
structure Px where
  x : ℝ
  y : ℝ

/-- A geographic coordinate in degrees. -/
structure LatLng where
  lat : ℝ
  lng : ℝ

/-- Embeds `latLngToPx` (TileMap.jsx, lines 6-12). -/
noncomputable def latLngToPx (lat lng zoom : ℝ) : Px :=
  let n := (2 : ℝ) ^ zoom
  let x := ((lng + 180) / 360) * n * TILE_SIZE
  let latRad := (lat * Real.pi) / 180
  let y := (1 - Real.log (Real.tan latRad + 1 / Real.cos latRad) / Real.pi) / 2 * n * TILE_SIZE
  { x := x, y := y }

/-- Embeds `pxToLatLng` (TileMap.jsx, lines 14-20). -/
noncomputable def pxToLatLng (x y zoom : ℝ) : LatLng :=
  let n := (2 : ℝ) ^ zoom
  let lng := (x / (n * TILE_SIZE)) * 360 - 180
  let latRad := Real.arctan (Real.sinh (Real.pi * (1 - (2 * y) / (n * TILE_SIZE))))
  let lat := (latRad * 180) / Real.pi
  { lat := lat, lng := lng }

/-! ## Viewport state and interaction -/

/-- The view descriptor held in the `viewport` state. -/
structure Viewport where
  lat : ℝ
  lng : ℝ
  zoom : ℝ

/-- The initial value of the `viewport` state (TileMap.jsx, line 110). -/
def initialViewport : Viewport := { lat := 39.8283, lng := -98.5795, zoom := 4 }

/-- The bounding rectangle of the map element, as `getBoundingClientRect` gives it. -/
structure Rect where
  left : ℝ
  top : ℝ
  width : ℝ
  height : ℝ

/-- The fields of a wheel event that the handler reads. -/
structure WheelEvent where
  clientX : ℝ
  clientY : ℝ
  deltaY : ℝ

/-- Embeds `onWheel` (TileMap.jsx, lines 142-160): the viewport it sets. -/
noncomputable def onWheel (viewport : Viewport) (rect : Rect) (e : WheelEvent) : Viewport :=
  let mouseX := e.clientX - rect.left
  let mouseY := e.clientY - rect.top
  let currentZoom := viewport.zoom
  let zoomDelta : ℝ := if e.deltaY > 0 then -0.5 else 0.5
  let newZoom := min (max (currentZoom + zoomDelta) 2) 12
  let centerPx := latLngToPx viewport.lat viewport.lng currentZoom
  let tlPx : Px := { x := centerPx.x - rect.width / 2, y := centerPx.y - rect.height / 2 }
  let mouseWorldPx : Px := { x := tlPx.x + mouseX, y := tlPx.y + mouseY }
  let mouseLatLng := pxToLatLng mouseWorldPx.x mouseWorldPx.y currentZoom
  let newMouseWorldPx := latLngToPx mouseLatLng.lat mouseLatLng.lng newZoom
  let newTlPx : Px := { x := newMouseWorldPx.x - mouseX, y := newMouseWorldPx.y - mouseY }
  let newCenterPx : Px := { x := newTlPx.x + rect.width / 2, y := newTlPx.y + rect.height / 2 }
  let newCenter := pxToLatLng newCenterPx.x newCenterPx.y newZoom
  { lat := newCenter.lat, lng := newCenter.lng, zoom := newZoom }

/-- Embeds the updater of `zoomIn` (TileMap.jsx, line 165). -/
noncomputable def zoomIn (prev : Viewport) : Viewport :=
  { prev with zoom := min (prev.zoom + 1) 12 }

/-- Embeds the updater of `zoomOut` (TileMap.jsx, line 166). -/
noncomputable def zoomOut (prev : Viewport) : Viewport :=
  { prev with zoom := max (prev.zoom - 1) 2 }

/-- The top-left world pixel of the viewport at its own zoom (TileMap.jsx, lines 198-199). -/
noncomputable def viewportTlPx (viewport : Viewport) (width height : ℝ) : Px :=
  let centerPx := latLngToPx viewport.lat viewport.lng viewport.zoom
  { x := centerPx.x - width / 2, y := centerPx.y - height / 2 }

/-- The interaction state of the map component: the viewport and the drag bookkeeping
(TileMap.jsx, lines 110-115). -/
structure MapState where
  viewport : Viewport
  isDragging : Bool
  dragStart : Px
  startViewport : LatLng
  dragDistance : ℝ

/-- The state of a freshly mounted map. -/
def initialState : MapState :=
  { viewport := initialViewport
    isDragging := false
    dragStart := { x := 0, y := 0 }
    startViewport := { lat := 0, lng := 0 }
    dragDistance := 0 }

/-- Embeds `startDrag` (TileMap.jsx, lines 168-173). -/
def startDrag (s : MapState) (clientX clientY : ℝ) : MapState :=
  { s with
    isDragging := true
    dragDistance := 0
    dragStart := { x := clientX, y := clientY }
    startViewport := { lat := s.viewport.lat, lng := s.viewport.lng } }

/-- Embeds `onDrag` (TileMap.jsx, lines 175-184). -/
noncomputable def onDrag (s : MapState) (clientX clientY : ℝ) : MapState :=
  if !s.isDragging then s
  else
    let dx := clientX - s.dragStart.x
    let dy := clientY - s.dragStart.y
    let centerPx := latLngToPx s.startViewport.lat s.startViewport.lng s.viewport.zoom
    let newCenterPx : Px := { x := centerPx.x - dx, y := centerPx.y - dy }
    let newCenter := pxToLatLng newCenterPx.x newCenterPx.y s.viewport.zoom
    { s with
      dragDistance := s.dragDistance + |dx| + |dy|
      viewport := { s.viewport with lat := newCenter.lat, lng := newCenter.lng } }

/-- Embeds `endDrag` (TileMap.jsx, line 186). -/
def endDrag (s : MapState) : MapState := { s with isDragging := false }

/-- The inputs that change the interaction state. -/
inductive MapEvent where
  | zoomIn : MapEvent
  | zoomOut : MapEvent
  | wheel (rect : Rect) (e : WheelEvent) : MapEvent
  | startDrag (clientX clientY : ℝ) : MapEvent
  | drag (clientX clientY : ℝ) : MapEvent
  | endDrag : MapEvent

/-- One input handled on the current state. -/
noncomputable def step (s : MapState) : MapEvent → MapState
  | .zoomIn => { s with viewport := zoomIn s.viewport }
  | .zoomOut => { s with viewport := zoomOut s.viewport }
  | .wheel rect e => { s with viewport := onWheel s.viewport rect e }
  | .startDrag x y => startDrag s x y
  | .drag x y => onDrag s x y
  | .endDrag => endDrag s

/-- A finite sequence of inputs handled in order. -/
noncomputable def run (s : MapState) (events : List MapEvent) : MapState :=
  events.foldl step s

/-! ## Tile grid -/

/-- The wrapped column index of the tile loop (TileMap.jsx, line 212); `Int.tmod` is the
truncating remainder of the language. -/
def wrappedX (x : ℤ) (tileZoom : ℕ) : ℤ :=
  Int.tmod (Int.tmod x (2 ^ tileZoom) + 2 ^ tileZoom) (2 ^ tileZoom)

end TileMap

namespace App

open TileMap

/-- A record of the raw data file, before ingestion. -/
structure RawItem where
  id : String
  attending : JSValue
  accepted : JSValue
  rate : JSValue
  lat : JSValue
  lng : JSValue
  deriving DecidableEq

/-- The `seenIds` map of `processData`, as an association list. -/
abbrev SeenIds := List (String × ℕ)

/-- The method `Map.prototype.get`. -/
def SeenIds.get (m : SeenIds) (key : String) : Option ℕ := m.lookup key

/-- The method `Map.prototype.set`: replaces the value of a key already there. -/
def SeenIds.set : SeenIds → String → ℕ → SeenIds
  | [], key, v => [(key, v)]
  | (k, w) :: m, key, v => if k = key then (k, v) :: m else (k, w) :: SeenIds.set m key v

/-- The expression `Number(v) || 0`. -/
def numberOrZero (v : JSValue) : JSValue :=
  if v.toNumberValue.truthy then v.toNumberValue else .num 0

/-- The body of the callback of `processData` (App.jsx, lines 25-43): the updated map and
the record returned. -/
def processItem (seenIds : SeenIds) (item : RawItem) : SeenIds × College :=
  let r : SeenIds × String :=
    match seenIds.get item.id with
    | some count => (seenIds.set item.id (count + 1), item.id ++ "-" ++ toString count)
    | none => (seenIds.set item.id 1, item.id)
  (r.1,
    { id := r.2
      attending := numberOrZero item.attending
      accepted := numberOrZero item.accepted
      rate := if item.rate ≠ .undefined then item.rate.toNumberValue else .null
      lat := item.lat.toNumberValue
      lng := item.lng.toNumberValue })

/-- The loop of `rawData.map`, threading the map through the records in order. -/
def processFrom (seenIds : SeenIds) : List RawItem → List College
  | [] => []
  | item :: rest => (processItem seenIds item).2 :: processFrom (processItem seenIds item).1 rest

/-- Embeds `processData` (App.jsx, lines 23-44). -/
def processData (rawData : List RawItem) : List College := processFrom [] rawData

end App

/-! ## Concrete inputs used by the scenarios below -/

namespace TileMap

/-- The entity of the absent-rate scenario of the specification. -/
def entityA : College :=
  { id := "A", attending := .num 52, accepted := .undefined, rate := .null,
    lat := .num 40, lng := .num (-88) }

/-- An entity whose acceptance rate is the number 0. -/
def zeroRateCollege : College :=
  { id := "Z", attending := .num 3, accepted := .num 0, rate := .num 0,
    lat := .num 40, lng := .num (-88) }

/-- An entity on the equator, away from the origin. -/
def equatorCollege : College :=
  { id := "E", attending := .num 3, accepted := .num 3, rate := .num 50,
    lat := .num 0, lng := .num 10 }

/-- An entity with the given attendance and nothing else known. -/
def attendingOnly (a : ℚ) : College :=
  { id := "A", attending := .num a, accepted := .undefined, rate := .undefined,
    lat := .undefined, lng := .undefined }

/-- An 800 by 600 surface at the top-left of the page. -/
def sampleRect : Rect := { left := 0, top := 0, width := 800, height := 600 }

/-- A wheel event at (100, 200) scrolling up. -/
def sampleWheel : WheelEvent := { clientX := 100, clientY := 200, deltaY := -1 }

end TileMap

namespace App

/-- A raw record with the given id. -/
def rawWithId (id : String) : RawItem :=
  { id := id, attending := .num 1, accepted := .num 1, rate := .num 50,
    lat := .num 40, lng := .num (-88) }

/-- Three raw records: two share the id "A", the third already carries the id "A-1". -/
def collidingRawData : List RawItem := [rawWithId "A", rawWithId "A", rawWithId "A-1"]

end App

/-! ## Colours and radii -/

namespace TileMap

/-- An entry of the `COLORS` table (TileMap.jsx, lines 22-38). -/
structure ColorEntry where
  color : String
  label : String
  radius : ℕ
  deriving DecidableEq

namespace COLORS

namespace ATTENDING

/-- The entry `COLORS.ATTENDING.HIGH`. -/
def HIGH : ColorEntry := { color := "#ef4444", label := "50+ Students", radius := 24 }

/-- The entry `COLORS.ATTENDING.MED`. -/
def MED : ColorEntry := { color := "#f97316", label := "20-49 Students", radius := 18 }

/-- The entry `COLORS.ATTENDING.LOW`. -/
def LOW : ColorEntry := { color := "#eab308", label := "10-19 Students", radius := 14 }

/-- The entry `COLORS.ATTENDING.VERY_LOW`. -/
def VERY_LOW : ColorEntry := { color := "#84cc16", label := "5-9 Students", radius := 10 }

/-- The entry `COLORS.ATTENDING.MIN`. -/
def MIN : ColorEntry := { color := "#3b82f6", label := "1-4 Students", radius := 6 }

end ATTENDING

namespace ACCEPTANCE

/-- The entry `COLORS.ACCEPTANCE.EXTREME`. -/
def EXTREME : ColorEntry := { color := "#7f1d1d", label := "< 5% Rate", radius := 24 }

/-- The entry `COLORS.ACCEPTANCE.VERY_LOW`. -/
def VERY_LOW : ColorEntry := { color := "#b91c1c", label := "5-10% Rate", radius := 20 }

/-- The entry `COLORS.ACCEPTANCE.LOW`. -/
def LOW : ColorEntry := { color := "#ef4444", label := "10-20% Rate", radius := 16 }

/-- The entry `COLORS.ACCEPTANCE.SELECTIVE`. -/
def SELECTIVE : ColorEntry := { color := "#f97316", label := "20-50% Rate", radius := 12 }

/-- The entry `COLORS.ACCEPTANCE.MODERATE`. -/
def MODERATE : ColorEntry := { color := "#eab308", label := "50-80% Rate", radius := 10 }

/-- The entry `COLORS.ACCEPTANCE.OPEN`. -/
def OPEN : ColorEntry := { color := "#22c55e", label := "> 80% Rate", radius := 8 }

end ACCEPTANCE

/-- The property access `COLORS[group][key]`: `none` when the table has no such entry. -/
def lookup (group key : String) : Option ColorEntry :=
  if group = "ATTENDING" then
    if key = "HIGH" then some ATTENDING.HIGH
    else if key = "MED" then some ATTENDING.MED
    else if key = "LOW" then some ATTENDING.LOW
    else if key = "VERY_LOW" then some ATTENDING.VERY_LOW
    else if key = "MIN" then some ATTENDING.MIN
    else none
  else if group = "ACCEPTANCE" then
    if key = "EXTREME" then some ACCEPTANCE.EXTREME
    else if key = "VERY_LOW" then some ACCEPTANCE.VERY_LOW
    else if key = "LOW" then some ACCEPTANCE.LOW
    else if key = "SELECTIVE" then some ACCEPTANCE.SELECTIVE
    else if key = "MODERATE" then some ACCEPTANCE.MODERATE
    else if key = "OPEN" then some ACCEPTANCE.OPEN
    else none
  else none

end COLORS

/-- Embeds `getMarkerColor` (TileMap.jsx, lines 40-56). -/
def getMarkerColor (college : College) (mode : String) : String :=
  if mode = "attending" then
    if college.attending.ge 50 then COLORS.ATTENDING.HIGH.color
    else if college.attending.ge 20 then COLORS.ATTENDING.MED.color
    else if college.attending.ge 10 then COLORS.ATTENDING.LOW.color
    else if college.attending.ge 5 then COLORS.ATTENDING.VERY_LOW.color
    else COLORS.ATTENDING.MIN.color
  else
    if !college.rate.truthy then "#94a3b8"
    else if college.rate.lt 5 then COLORS.ACCEPTANCE.EXTREME.color
    else if college.rate.lt 10 then COLORS.ACCEPTANCE.VERY_LOW.color
    else if college.rate.lt 20 then COLORS.ACCEPTANCE.LOW.color
    else if college.rate.lt 50 then COLORS.ACCEPTANCE.SELECTIVE.color
    else if college.rate.lt 80 then COLORS.ACCEPTANCE.MODERATE.color
    else COLORS.ACCEPTANCE.OPEN.color

/-- Embeds `getMarkerRadius` (TileMap.jsx, lines 76-96). -/
def getMarkerRadius (college : College) (mode : String) : ℕ :=
  if mode = "attending" then
    let attending := college.attending
    if attending.ge 50 then COLORS.ATTENDING.HIGH.radius
    else if attending.ge 20 then COLORS.ATTENDING.MED.radius
    else if attending.ge 10 then COLORS.ATTENDING.LOW.radius
    else if attending.ge 5 then COLORS.ATTENDING.VERY_LOW.radius
    else COLORS.ATTENDING.MIN.radius
  else if mode = "acceptance" then
    let rate := college.rate
    if !rate.truthy then 8
    else if rate.lt 5 then COLORS.ACCEPTANCE.EXTREME.radius
    else if rate.lt 10 then COLORS.ACCEPTANCE.VERY_LOW.radius
    else if rate.lt 20 then COLORS.ACCEPTANCE.LOW.radius
    else if rate.lt 50 then COLORS.ACCEPTANCE.SELECTIVE.radius
    else if rate.lt 80 then COLORS.ACCEPTANCE.MODERATE.radius
    else COLORS.ACCEPTANCE.OPEN.radius
  else 6

/-- The table of `COLORS` that a mode reads. -/
def colorGroup (mode : String) : String :=
  if mode = "attending" then "ATTENDING" else "ACCEPTANCE"

/-! ## Marker selection -/

/-- Embeds `handleMarkerClick` (TileMap.jsx, line 195): the argument that `onSelect` is
called with, or `none` when it is not called. -/
noncomputable def handleMarkerClick (s : MapState) (id : String) : Option String :=
  if s.dragDistance < 5 then some id else none

/-! ## Tile grid -/

/-- The values of the counter of a loop that starts at `a` and runs while it is below `b`. -/
def intRange (a b : ℤ) : List ℤ :=
  (List.range (b - a).toNat).map fun (i : ℕ) => a + (i : ℤ)

/-- The integer zoom at which tiles are fetched (TileMap.jsx, line 200). -/
noncomputable def tileZoom (viewport : Viewport) : ℤ := ⌊viewport.zoom⌋

/-- The factor by which fetched tiles are scaled (TileMap.jsx, line 201). -/
noncomputable def scale (viewport : Viewport) : ℝ :=
  (2 : ℝ) ^ (viewport.zoom - (tileZoom viewport : ℝ))

/-- The top-left world pixel of the viewport at the tile zoom (TileMap.jsx, lines 202-203). -/
noncomputable def viewportTlPxTile (viewport : Viewport) (width height : ℝ) : Px :=
  let centerPxTile := latLngToPx viewport.lat viewport.lng (tileZoom viewport)
  { x := centerPxTile.x - (width / scale viewport) / 2
    y := centerPxTile.y - (height / scale viewport) / 2 }

/-- The first tile column of the loop (TileMap.jsx, line 204). -/
noncomputable def startTileX (viewport : Viewport) (width height : ℝ) : ℤ :=
  ⌊(viewportTlPxTile viewport width height).x / TILE_SIZE⌋

/-- The first tile row of the loop (TileMap.jsx, line 205). -/
noncomputable def startTileY (viewport : Viewport) (width height : ℝ) : ℤ :=
  ⌊(viewportTlPxTile viewport width height).y / TILE_SIZE⌋

/-- The bound of the tile columns of the loop (TileMap.jsx, line 206). -/
noncomputable def endTileX (viewport : Viewport) (width height : ℝ) : ℤ :=
  ⌈((viewportTlPxTile viewport width height).x + width / scale viewport) / TILE_SIZE⌉

/-- The bound of the tile rows of the loop (TileMap.jsx, line 207). -/
noncomputable def endTileY (viewport : Viewport) (width height : ℝ) : ℤ :=
  ⌈((viewportTlPxTile viewport width height).y + height / scale viewport) / TILE_SIZE⌉

/-- An image pushed by the tile loop: the address in its URL (`tileZoom`, `wrappedX`, `y`),
the column `x` of its key, and its placement on the screen. -/
structure Tile where
  tileZoom : ℤ
  x : ℤ
  y : ℤ
  wrappedX : ℤ
  left : ℝ
  top : ℝ
  size : ℝ

/-- The body of the tile loop for column `x` and row `y` (TileMap.jsx, lines 212-216). -/
noncomputable def tileAt (viewport : Viewport) (width height : ℝ) (x y : ℤ) : Tile :=
  { tileZoom := tileZoom viewport
    x := x
    y := y
    wrappedX := wrappedX x (tileZoom viewport).toNat
    left := ((x : ℝ) * TILE_SIZE - (viewportTlPxTile viewport width height).x) * scale viewport
    top := ((y : ℝ) * TILE_SIZE - (viewportTlPxTile viewport width height).y) * scale viewport
    size := TILE_SIZE * scale viewport }

/-- Embeds the tile loop (TileMap.jsx, lines 209-218): the images pushed, in order. -/
noncomputable def tiles (viewport : Viewport) (width height : ℝ) : List Tile :=
  (intRange (startTileX viewport width height) (endTileX viewport width height)).flatMap
    fun x =>
      (intRange (startTileY viewport width height) (endTileY viewport width height)).map
        fun y => tileAt viewport width height x y

/-! ## Marker pipeline -/

/-- The filter set: a bucket key is mapped to a boolean or is absent. -/
abbrev Filters := String → Option Bool

/-- The number a coordinate field stands for in the projection. The coordinate guard lets
only nonzero numbers through, so the value chosen for NaN is never used. -/
def JSValue.toReal (v : JSValue) : ℝ :=
  match v.toNumber with
  | some q => (q : ℝ)
  | none => 0

/-- An ordinate as the language computes it from a latitude that nothing bounds: a finite
number, or NaN. -/
inductive Ordinate where
  | fin (y : ℝ) : Ordinate
  | nan : Ordinate

namespace Ordinate

/-- The subtraction `a - b`: NaN when an operand is NaN. -/
noncomputable def sub : Ordinate → Ordinate → Ordinate
  | fin a, fin b => fin (a - b)
  | _, _ => nan

/-- The subtraction `a - r` of a finite number: NaN when `a` is NaN. -/
noncomputable def subReal : Ordinate → ℝ → Ordinate
  | fin a, r => fin (a - r)
  | nan, _ => nan

/-- The comparison `a < r`: false when `a` is NaN. -/
def lt : Ordinate → ℝ → Prop
  | fin a, r => a < r
  | nan, _ => False

/-- The comparison `a > r`: false when `a` is NaN. -/
def gt : Ordinate → ℝ → Prop
  | fin a, r => a > r
  | nan, _ => False

/-- The ordinate is a number between the two bounds; no bound holds of NaN. -/
def between (lo hi : ℝ) : Ordinate → Prop
  | fin a => lo ≤ a ∧ a ≤ hi
  | nan => False

end Ordinate

/-- A projected point whose ordinate may be NaN. -/
structure PxJS where
  x : ℝ
  y : Ordinate

/-- Embeds `latLngToPx` (TileMap.jsx, lines 6-12) as the marker pipeline calls it, on a
latitude that nothing bounds, in exact arithmetic. The argument of the logarithm is
`(1 + sin latRad) / cos latRad`: where the cosine is positive it is positive and the
ordinate is the number that `latLngToPx` gives; where the cosine is negative it is
negative and the ordinate is NaN. Where the cosine is zero (latitude 90, -90, 270, ...)
the value in the code depends on the rounding of pi / 2, being finite, infinite or NaN
from one such latitude to another, and the embedding gives no result. -/
noncomputable def latLngToPxJS (lat lng zoom : ℝ) : Option PxJS :=
  let n := (2 : ℝ) ^ zoom
  let x := ((lng + 180) / 360) * n * TILE_SIZE
  let latRad := (lat * Real.pi) / 180
  if Real.cos latRad = 0 then none
  else if 0 < Real.tan latRad + 1 / Real.cos latRad then
    some
      { x := x
        y := .fin ((1 - Real.log (Real.tan latRad + 1 / Real.cos latRad) / Real.pi) / 2
              * n * TILE_SIZE) }
  else some { x := x, y := .nan }

/-- The locals `left` and `top` of the marker callback (TileMap.jsx, lines 224-226), with
the top-left world pixel of the viewport of lines 198-199; no result where a projection
has none. -/
noncomputable def markerLeftTop (college : College) (viewport : Viewport)
    (width height : ℝ) : Option PxJS :=
  match latLngToPxJS college.lat.toReal college.lng.toReal viewport.zoom,
    latLngToPxJS viewport.lat viewport.lng viewport.zoom with
  | some px, some centerPx =>
    some
      { x := px.x - (centerPx.x - width / 2)
        y := px.y.sub (centerPx.y.subReal (height / 2)) }
  | _, _ => none

/-- A rendered marker: its key and the style of its element. -/
structure Marker where
  id : String
  left : ℝ
  top : Ordinate
  width : ℝ
  height : ℝ
  color : String

/-- What the callback of the marker pipeline returns: `null`, or an element. -/
inductive MarkerElement where
  | null : MarkerElement
  | element (m : Marker) : MarkerElement

/-- The callback of `data.map` in the marker pipeline (TileMap.jsx, lines 220-244); no
result where the projection has none. The comparisons of the cull are those of the
language: each is false of NaN. -/
noncomputable def marker (college : College) (vizMode : String) (filters : Filters)
    (viewport : Viewport) (width height : ℝ) : Option MarkerElement :=
  open Classical in
  if skipsCoordinate college then some .null
  else
    let category := getCategoryKey college vizMode
    if filters category = some false then some .null
    else
      match markerLeftTop college viewport width height with
      | none => none
      | some p =>
        let left := p.x
        let top := p.y
        if left < -50 ∨ left > width + 50 ∨ top.lt (-50) ∨ top.gt (height + 50) then
          some .null
        else
          let radius := getMarkerRadius college vizMode
          let color := getMarkerColor college vizMode
          some
            (.element
              { id := college.id
                left := left - radius
                top := top.subReal radius
                width := radius * 2
                height := radius * 2
                color := color })

/-- The outcome of the marker pass of a render: what the callback returned for each
entity, and the filter set as it stands after the pass. -/
structure MarkerPass where
  markers : List (Option MarkerElement)
  filters : Filters

/-- Embeds the marker pass (TileMap.jsx, lines 220-244). The callback only reads
`filters[category]`; it contains no assignment to the filter set and no call of
`toggleFilter`, so the filter set comes out as it went in. -/
noncomputable def markersPass (data : List College) (vizMode : String) (filters : Filters)
    (viewport : Viewport) (width height : ℝ) : MarkerPass :=
  { markers := data.map fun college => marker college vizMode filters viewport width height
    filters := filters }

end TileMap

/-! ## Dashboard -/

namespace App

open TileMap

/-- The initial value of the `filters` state (App.jsx, line 58). -/
def initialFilters : Filters := fun key =>
  if key ∈ ["HIGH", "MED", "LOW", "VERY_LOW", "MIN", "EXTREME", "VERY_LOW_ACC", "LOW_ACC",
      "SELECTIVE", "MODERATE", "OPEN", "UNKNOWN"] then some true
  else none

/-- Embeds the updater of `toggleFilter` (App.jsx, line 60): an absent value is falsy. -/
def toggleFilter (key : String) (prev : Filters) : Filters := fun k =>
  if k = key then some (!(prev key).getD false) else prev k

/-- A number of the language in double precision: NaN, an infinity, or a finite value;
the two zeros are one value. -/
inductive Double where
  | nan : Double
  | posInf : Double
  | negInf : Double
  | fin (q : ℚ) : Double
  deriving DecidableEq

/-- The nearest integer, a tie going to the even one. -/
def roundHalfEven (q : ℚ) : ℤ :=
  if q - ⌊q⌋ < 1 / 2 then ⌊q⌋
  else if 1 / 2 < q - ⌊q⌋ then ⌊q⌋ + 1
  else if ⌊q⌋ % 2 = 0 then ⌊q⌋
  else ⌊q⌋ + 1

/-- Rounding of an exact value to double precision (IEEE 754 binary64, round to nearest,
ties to even): 53 significant bits, the spacing of the subnormal numbers below the exponent
-1022, and an infinity when the rounded magnitude reaches `2^1024`. -/
def toDouble (q : ℚ) : Double :=
  if q = 0 then .fin 0
  else
    let e := max (Int.log 2 |q|) (-1022)
    let ulp : ℚ := 2 ^ (e - 52)
    let r : ℚ := roundHalfEven (q / ulp) * ulp
    if 2 ^ 1024 ≤ |r| then (if 0 < q then .posInf else .negInf) else .fin r

/-- The double that a field stands for as an operand of arithmetic (ToNumber): a number
that is already a double stands for itself. -/
def numberOf (v : JSValue) : Double :=
  match v.toNumber with
  | some q => toDouble q
  | none => .nan

/-- Addition of two doubles: the exact sum, rounded. -/
def jsAdd : Double → Double → Double
  | .fin x, .fin y => toDouble (x + y)
  | .nan, _ => .nan
  | _, .nan => .nan
  | .posInf, .negInf => .nan
  | .negInf, .posInf => .nan
  | .posInf, _ => .posInf
  | _, .posInf => .posInf
  | .negInf, _ => .negInf
  | _, .negInf => .negInf

/-- The function `Math.round`: the nearest integer, halves rounded up; NaN and the
infinities are returned as they are. -/
def mathRound : Double → Double
  | .fin q => .fin ⌊q + 1 / 2⌋
  | v => v

/-- Division of a double by the length of an array: the exact quotient, rounded; `none`
marks a division whose divisor is zero. -/
def divideByLength (sum : Double) (length : ℕ) : Option Double :=
  if length = 0 then none
  else
    match sum with
    | .fin q => some (toDouble (q / length))
    | v => some v

/-- The entities whose rate is present (App.jsx, line 65). -/
def rateColleges (colleges : List College) : List College :=
  colleges.filter fun c => decide (c.rate ≠ .null) && decide (c.rate ≠ .undefined)

/-- Embeds `stats.avgAcceptanceRate` (App.jsx, lines 65-66) in double precision; `none`
would mean that a division by zero was performed. -/
def avgAcceptanceRate (colleges : List College) : Option Double :=
  if (rateColleges colleges).length ≠ 0 then
    (divideByLength
      ((rateColleges colleges).foldl (fun sum c => jsAdd sum (numberOf c.rate)) (.fin 0))
      (rateColleges colleges).length).map mathRound
  else some (.fin 0)

/-- The comparison `a < b` of two values of the language, after ToNumber. -/
def jsLt (a b : JSValue) : Bool :=
  match a.toNumber, b.toNumber with
  | some x, some y => decide (x < y)
  | _, _ => false

/-- The comparator of the table sort (App.jsx, lines 92-100) for the column read by `key`,
ascending or descending: negative, zero or positive. -/
def compareRows (key : College → JSValue) (asc : Bool) (a b : College) : ℤ :=
  let valA := if key a = .null ∨ key a = .undefined then .num (-1) else key a
  let valB := if key b = .null ∨ key b = .undefined then .num (-1) else key b
  if jsLt valA valB then (if asc then -1 else 1)
  else if jsLt valB valA then (if asc then 1 else -1)
  else 0

/-- Embeds `filteredColleges` (App.jsx, lines 82-102). The search predicate reads the name,
city and state of a row, which the embedding of an entity does not carry, so it is taken
as a parameter: `none` when the search term is empty. The sort is a stable sort by the
comparator. -/
def filteredColleges (colleges : List College) (search : Option (College → Bool))
    (vizMode : String) (filters : Filters) (key : College → JSValue) (asc : Bool) :
    List College :=
  let data := colleges
  let data := match search with
    | some p => data.filter p
    | none => data
  let data := data.filter fun c =>
    let category := getCategoryKey c vizMode
    decide (filters category ≠ some false)
  data.mergeSort fun a b => decide (compareRows key asc a b ≤ 0)

end App

/-! ## Further concrete inputs -/

namespace TileMap

/-- An entity with the given acceptance rate and nothing else known. -/
def rateOnly (r : ℚ) : College :=
  { id := "R", attending := .undefined, accepted := .undefined, rate := .num r,
    lat := .undefined, lng := .undefined }

end TileMap

namespace TileMap

/-- A viewport centered on the scenario entity, at zoom 4. -/
def viewportAtEntityA : Viewport := { lat := 40, lng := -88, zoom := 4 }

/-- A filter set that hides the key LOW and nothing else. -/
def hideLow : Filters := fun key => if key = "LOW" then some false else some true

/-- An entity with attendance 15, geocoded. -/
def lowAttendanceCollege : College :=
  { id := "L", attending := .num 15, accepted := .num 20, rate := .num 50,
    lat := .num 40, lng := .num (-88) }

/-- An entity with acceptance rate 15, geocoded. -/
def lowRateCollege : College :=
  { id := "M", attending := .num 3, accepted := .num 6, rate := .num 15,
    lat := .num 40, lng := .num (-88) }

end TileMap

namespace TileMap

/-- A viewport centered on the origin, at zoom 2. -/
def originViewport : Viewport := { lat := 0, lng := 0, zoom := 2 }

/-- A viewport at zoom 2 panned north: its center is the coordinate of the world pixel
(512, 100). -/
noncomputable def northViewport : Viewport :=
  { lat := (pxToLatLng 512 100 2).lat, lng := (pxToLatLng 512 100 2).lng, zoom := 2 }

end TileMap

namespace App

open TileMap

/-- Three entities with the rates 1.4, 2.8 and 3.3. -/
def fractionalRates : List College := [rateOnly 1.4, rateOnly 2.8, rateOnly 3.3]

/-- Two entities with the rates 2.4999999999999996 and 2.5. -/
def nearHalfRates : List College := [rateOnly 2.4999999999999996, rateOnly 2.5]

/-- The scenario entity, whose rate is null, between two entities with the rates 10 and 15. -/
def wholeRates : List College := [rateOnly 10, entityA, rateOnly 15]

end App

namespace TileMap

/-- An entity whose latitude, 180, lies beyond the pole; its longitude is 10. -/
def beyondPoleCollege : College :=
  { id := "P", attending := .num 60, accepted := .num 80, rate := .num 50,
    lat := .num 180, lng := .num 10 }

/-- A viewport on the equator at longitude 10, at zoom 2. -/
def meridianViewport : Viewport := { lat := 0, lng := 10, zoom := 2 }

end TileMap

/-! ## Theorems -/

namespace TileMap

/-! ### Projection -/

theorem two_rpow_pos (z : ℝ) : (0 : ℝ) < (2 : ℝ) ^ z :=
  Real.rpow_pos_of_pos (by norm_num) z

/-- Inside the open interval between the poles, the hyperbolic sine of the Mercator
ordinate is the tangent of the latitude. -/
theorem sinh_log_tan_add_sec (φ : ℝ) (h1 : -(Real.pi / 2) < φ) (h2 : φ < Real.pi / 2) :
    Real.sinh (Real.log (Real.tan φ + 1 / Real.cos φ)) = Real.tan φ := by
  have hc : 0 < Real.cos φ := Real.cos_pos_of_mem_Ioo ⟨h1, h2⟩
  have hs : 0 < 1 + Real.sin φ := by
    have h := Real.sin_sq_add_cos_sq φ
    have : Real.sin φ ^ 2 < 1 := by nlinarith
    nlinarith [Real.sin_le_one φ]
  have hu : Real.tan φ + 1 / Real.cos φ = (1 + Real.sin φ) / Real.cos φ := by
    rw [Real.tan_eq_sin_div_cos]; field_simp; ring
  have hpos : 0 < (1 + Real.sin φ) / Real.cos φ := div_pos hs hc
  rw [hu, Real.sinh_eq, Real.exp_neg, Real.exp_log hpos, Real.tan_eq_sin_div_cos]
  have h := Real.sin_sq_add_cos_sq φ
  field_simp
  nlinarith [h]

/-- The Mercator ordinate of the latitude whose tangent is `sinh u` is `u`. -/
theorem log_tan_add_sec_arctan_sinh (u : ℝ) :
    Real.log (Real.tan (Real.arctan (Real.sinh u))
      + 1 / Real.cos (Real.arctan (Real.sinh u))) = u := by
  rw [Real.tan_arctan, Real.cos_arctan]
  have h : 1 + Real.sinh u ^ 2 = Real.cosh u ^ 2 := by rw [Real.cosh_sq]; ring
  rw [h, Real.sqrt_sq (Real.cosh_pos u).le, one_div_one_div, Real.sinh_add_cosh, Real.log_exp]

/-- Forward after inverse is the identity on every world pixel, at every zoom. -/
theorem latLngToPx_pxToLatLng (x y zoom : ℝ) :
    latLngToPx (pxToLatLng x y zoom).lat (pxToLatLng x y zoom).lng zoom = { x := x, y := y } := by
  have hn : (2 : ℝ) ^ zoom ≠ 0 := (two_rpow_pos zoom).ne'
  have hpi : Real.pi ≠ 0 := Real.pi_ne_zero
  have hr : ∀ a : ℝ, a * 180 / Real.pi * Real.pi / 180 = a := by
    intro a; field_simp
  simp only [pxToLatLng, latLngToPx]
  rw [hr, log_tan_add_sec_arctan_sinh]
  unfold TILE_SIZE
  congr 1
  · field_simp
    ring
  · field_simp
    ring

/-- C1. Projection round trip over the reals: for every zoom and every coordinate with
latitude strictly between -90 and 90 degrees (any longitude), `pxToLatLng` applied to
the pixel that `latLngToPx` returns, at the same zoom, gives back exactly the
coordinate. -/
theorem projection_round_trip (lat lng zoom : ℝ) (h1 : -90 < lat) (h2 : lat < 90) :
    pxToLatLng (latLngToPx lat lng zoom).x (latLngToPx lat lng zoom).y zoom
      = { lat := lat, lng := lng } := by
  have hn : (2 : ℝ) ^ zoom ≠ 0 := (two_rpow_pos zoom).ne'
  have hpi : Real.pi ≠ 0 := Real.pi_ne_zero
  have hpos := Real.pi_pos
  have hφ1 : -(Real.pi / 2) < lat * Real.pi / 180 := by
    have : (-90) * Real.pi < lat * Real.pi := mul_lt_mul_of_pos_right h1 hpos
    linarith
  have hφ2 : lat * Real.pi / 180 < Real.pi / 2 := by
    have : lat * Real.pi < 90 * Real.pi := mul_lt_mul_of_pos_right h2 hpos
    linarith
  have hu : Real.pi * (1 - 2 * ((1 - Real.log (Real.tan (lat * Real.pi / 180)
      + 1 / Real.cos (lat * Real.pi / 180)) / Real.pi) / 2 * (2 : ℝ) ^ zoom * TILE_SIZE)
      / ((2 : ℝ) ^ zoom * TILE_SIZE))
      = Real.log (Real.tan (lat * Real.pi / 180) + 1 / Real.cos (lat * Real.pi / 180)) := by
    unfold TILE_SIZE
    field_simp
    ring
  simp only [pxToLatLng, latLngToPx]
  rw [hu, sinh_log_tan_add_sec _ hφ1 hφ2, Real.arctan_tan hφ1 hφ2]
  congr 1
  · field_simp
  · unfold TILE_SIZE
    field_simp
    ring

/-- Witness of C1 at latitude 40, longitude -88, zoom 4. -/
theorem projection_round_trip_witness :
    (-90 : ℝ) < 40 ∧ (40 : ℝ) < 90 ∧
      pxToLatLng (latLngToPx 40 (-88) 4).x (latLngToPx 40 (-88) 4).y 4
        = { lat := 40, lng := -88 } :=
  ⟨by norm_num, by norm_num, projection_round_trip 40 (-88) 4 (by norm_num) (by norm_num)⟩

/-! ### Anchored zoom -/

/-- C2. Anchored zoom invariant over the reals: for every viewport whose center latitude
is strictly between -90 and 90, every surface rectangle and every wheel event, the
geographic coordinate that was under the cursor before the event projects, at the zoom
and center that `onWheel` sets and with the same surface size, to the screen position of
the cursor. -/
theorem onWheel_anchored (viewport : Viewport) (rect : Rect) (e : WheelEvent)
    (_h1 : -90 < viewport.lat) (_h2 : viewport.lat < 90) :
    (latLngToPx
        (pxToLatLng ((viewportTlPx viewport rect.width rect.height).x + (e.clientX - rect.left))
          ((viewportTlPx viewport rect.width rect.height).y + (e.clientY - rect.top))
          viewport.zoom).lat
        (pxToLatLng ((viewportTlPx viewport rect.width rect.height).x + (e.clientX - rect.left))
          ((viewportTlPx viewport rect.width rect.height).y + (e.clientY - rect.top))
          viewport.zoom).lng
        (onWheel viewport rect e).zoom).x
        - (viewportTlPx (onWheel viewport rect e) rect.width rect.height).x
      = e.clientX - rect.left
    ∧ (latLngToPx
        (pxToLatLng ((viewportTlPx viewport rect.width rect.height).x + (e.clientX - rect.left))
          ((viewportTlPx viewport rect.width rect.height).y + (e.clientY - rect.top))
          viewport.zoom).lat
        (pxToLatLng ((viewportTlPx viewport rect.width rect.height).x + (e.clientX - rect.left))
          ((viewportTlPx viewport rect.width rect.height).y + (e.clientY - rect.top))
          viewport.zoom).lng
        (onWheel viewport rect e).zoom).y
        - (viewportTlPx (onWheel viewport rect e) rect.width rect.height).y
      = e.clientY - rect.top := by
  simp only [onWheel, viewportTlPx, latLngToPx_pxToLatLng]
  constructor <;> ring

/-- Witness of C2 at the initial viewport, an 800 by 600 surface and a wheel event at
(100, 200): the coordinate under the cursor stays at horizontal offset 100. -/
theorem onWheel_anchored_witness :
    -90 < initialViewport.lat ∧ initialViewport.lat < 90
    ∧ (latLngToPx
        (pxToLatLng
          ((viewportTlPx initialViewport sampleRect.width sampleRect.height).x
            + (sampleWheel.clientX - sampleRect.left))
          ((viewportTlPx initialViewport sampleRect.width sampleRect.height).y
            + (sampleWheel.clientY - sampleRect.top))
          initialViewport.zoom).lat
        (pxToLatLng
          ((viewportTlPx initialViewport sampleRect.width sampleRect.height).x
            + (sampleWheel.clientX - sampleRect.left))
          ((viewportTlPx initialViewport sampleRect.width sampleRect.height).y
            + (sampleWheel.clientY - sampleRect.top))
          initialViewport.zoom).lng
        (onWheel initialViewport sampleRect sampleWheel).zoom).x
        - (viewportTlPx (onWheel initialViewport sampleRect sampleWheel)
            sampleRect.width sampleRect.height).x
      = 100 := by
  have hlo : -90 < initialViewport.lat := by norm_num [initialViewport]
  have hhi : initialViewport.lat < 90 := by norm_num [initialViewport]
  refine ⟨hlo, hhi, ?_⟩
  rw [(onWheel_anchored initialViewport sampleRect sampleWheel hlo hhi).1]
  norm_num [sampleWheel, sampleRect]

end TileMap

namespace TileMap

/-! ### Zoom range -/

theorem zoomIn_zoom_range (vp : Viewport) (h : 2 ≤ vp.zoom) :
    2 ≤ (zoomIn vp).zoom ∧ (zoomIn vp).zoom ≤ 12 := by
  simp only [zoomIn]
  exact ⟨le_min (by linarith) (by norm_num), min_le_right _ _⟩

theorem zoomOut_zoom_range (vp : Viewport) (h : vp.zoom ≤ 12) :
    2 ≤ (zoomOut vp).zoom ∧ (zoomOut vp).zoom ≤ 12 := by
  simp only [zoomOut]
  exact ⟨le_max_right _ _, max_le (by linarith) (by norm_num)⟩

theorem onWheel_zoom_range (vp : Viewport) (rect : Rect) (e : WheelEvent) :
    2 ≤ (onWheel vp rect e).zoom ∧ (onWheel vp rect e).zoom ≤ 12 := by
  simp only [onWheel]
  exact ⟨le_min (le_max_right _ _) (by norm_num), min_le_right _ _⟩

theorem onDrag_zoom (s : MapState) (x y : ℝ) : (onDrag s x y).viewport.zoom = s.viewport.zoom := by
  unfold onDrag
  split <;> rfl

theorem step_zoom_range (s : MapState) (ev : MapEvent)
    (h : 2 ≤ s.viewport.zoom ∧ s.viewport.zoom ≤ 12) :
    2 ≤ (step s ev).viewport.zoom ∧ (step s ev).viewport.zoom ≤ 12 := by
  cases ev with
  | zoomIn => exact zoomIn_zoom_range _ h.1
  | zoomOut => exact zoomOut_zoom_range _ h.2
  | wheel rect e => exact onWheel_zoom_range _ rect e
  | startDrag x y => exact h
  | drag x y =>
    show 2 ≤ (onDrag s x y).viewport.zoom ∧ (onDrag s x y).viewport.zoom ≤ 12
    rw [onDrag_zoom]; exact h
  | endDrag => exact h

theorem run_zoom_range (events : List MapEvent) (s : MapState)
    (h : 2 ≤ s.viewport.zoom ∧ s.viewport.zoom ≤ 12) :
    2 ≤ (run s events).viewport.zoom ∧ (run s events).viewport.zoom ≤ 12 := by
  induction events generalizing s with
  | nil => exact h
  | cons ev rest ih => exact ih (step s ev) (step_zoom_range s ev h)

theorem iterate_zoomIn_zoom_range (n : ℕ) (vp : Viewport)
    (h : 2 ≤ vp.zoom ∧ vp.zoom ≤ 12) :
    2 ≤ (zoomIn^[n] vp).zoom ∧ (zoomIn^[n] vp).zoom ≤ 12 := by
  induction n generalizing vp with
  | zero => exact h
  | succ k ih => exact ih (zoomIn vp) (zoomIn_zoom_range vp h.1)

theorem iterate_zoomOut_zoom_range (n : ℕ) (vp : Viewport)
    (h : 2 ≤ vp.zoom ∧ vp.zoom ≤ 12) :
    2 ≤ (zoomOut^[n] vp).zoom ∧ (zoomOut^[n] vp).zoom ≤ 12 := by
  induction n generalizing vp with
  | zero => exact h
  | succ k ih => exact ih (zoomOut vp) (zoomOut_zoom_range vp h.2)

theorem initialState_zoom_range :
    2 ≤ initialState.viewport.zoom ∧ initialState.viewport.zoom ≤ 12 := by
  simp only [initialState, initialViewport]
  norm_num

/-- C6. Zoom range invariant: from the initial state (zoom 4), after every finite
sequence of zoom-in, zoom-out, wheel, start-drag, drag and end-drag inputs the zoom of
the viewport lies between 2 and 12; in particular zoom-in repeated any number of times
never gives a zoom above 12 and zoom-out repeated any number of times never gives a zoom
below 2. -/
theorem zoom_range_invariant :
    (∀ events : List MapEvent,
      2 ≤ (run initialState events).viewport.zoom
        ∧ (run initialState events).viewport.zoom ≤ 12)
    ∧ (∀ n : ℕ, (zoomIn^[n] initialViewport).zoom ≤ 12)
    ∧ (∀ n : ℕ, 2 ≤ (zoomOut^[n] initialViewport).zoom) :=
  ⟨fun events => run_zoom_range events initialState initialState_zoom_range,
   fun n => (iterate_zoomIn_zoom_range n initialViewport initialState_zoom_range).2,
   fun n => (iterate_zoomOut_zoom_range n initialViewport initialState_zoom_range).1⟩

/-- C7. Discrete zoom step: for every viewport with zoom between 2 and 12, zoom-in gives
zoom `min (z + 1) 12`, zoom-out gives zoom `max (z - 1) 2`, and both leave the center
latitude and longitude unchanged. -/
theorem zoom_step (vp : Viewport) (_h1 : 2 ≤ vp.zoom) (_h2 : vp.zoom ≤ 12) :
    ((zoomIn vp).zoom = min (vp.zoom + 1) 12
        ∧ (zoomIn vp).lat = vp.lat ∧ (zoomIn vp).lng = vp.lng)
    ∧ ((zoomOut vp).zoom = max (vp.zoom - 1) 2
        ∧ (zoomOut vp).lat = vp.lat ∧ (zoomOut vp).lng = vp.lng) :=
  ⟨⟨rfl, rfl, rfl⟩, ⟨rfl, rfl, rfl⟩⟩

/-- Witness of C7 at the initial viewport: zoom 4 steps to 5 and to 3. -/
theorem zoom_step_witness :
    (zoomIn initialViewport).zoom = 5 ∧ (zoomOut initialViewport).zoom = 3
      ∧ (zoomIn initialViewport).lat = initialViewport.lat
      ∧ (zoomOut initialViewport).lng = initialViewport.lng := by
  have h := zoom_step initialViewport (by norm_num [initialViewport])
    (by norm_num [initialViewport])
  refine ⟨?_, ?_, h.1.2.1, h.2.2.2⟩
  · rw [h.1.1]; norm_num [initialViewport]
  · rw [h.2.1]; norm_num [initialViewport]

/-! ### Tile wraparound -/

theorem neg_lt_tmod (x n : ℤ) (hn : 0 < n) : -n < Int.tmod x n := by
  obtain ⟨k, rfl⟩ := Int.eq_ofNat_of_zero_le hn.le
  have hk : 0 < k := by exact_mod_cast hn
  cases x with
  | ofNat m =>
    show -(k : ℤ) < ((m % k : ℕ) : ℤ)
    omega
  | negSucc m =>
    show -(k : ℤ) < -((m.succ % k : ℕ) : ℤ)
    have := Nat.mod_lt m.succ hk
    omega

theorem wrappedX_eq_emod (x : ℤ) (tileZoom : ℕ) : wrappedX x tileZoom = x % 2 ^ tileZoom := by
  have hn : (0 : ℤ) < 2 ^ tileZoom := by positivity
  have hlo := neg_lt_tmod x _ hn
  unfold wrappedX
  rw [Int.tmod_eq_emod (by linarith) hn.le, Int.add_emod_self, Int.tmod_def,
    Int.sub_emod, Int.mul_emod_right]
  simp

/-- C8. Tile wraparound: for every integer column `x` and every tile zoom `t`, the wrapped
column index of the tile loop lies in `[0, 2^t)` and is congruent to `x` modulo `2^t`; at
tile zoom 3 the column -1 wraps to 7 and the column 8 wraps to 0. -/
theorem wrappedX_spec :
    (∀ (x : ℤ) (t : ℕ),
      0 ≤ wrappedX x t ∧ wrappedX x t < 2 ^ t ∧ wrappedX x t ≡ x [ZMOD 2 ^ t])
    ∧ wrappedX (-1) 3 = 7 ∧ wrappedX 8 3 = 0 := by
  refine ⟨fun x t => ?_, by decide, by decide⟩
  have hn : (0 : ℤ) < 2 ^ t := by positivity
  rw [wrappedX_eq_emod]
  exact ⟨Int.emod_nonneg _ hn.ne', Int.emod_lt_of_pos _ hn, Int.mod_modEq _ _⟩

end TileMap

namespace TileMap

/-! ### Category bucketing -/

/-- C3. Attendance bucketing: for every entity whose attendance is the number `a`, whatever
its rate and other fields, the attendance-mode key is HIGH when `a >= 50`, MED when
`20 <= a < 50`, LOW when `10 <= a < 20`, VERY_LOW when `5 <= a < 10` and MIN when
`a < 5`. -/
theorem getCategoryKey_attending (c : College) (a : ℚ) (h : c.attending = .num a) :
    (50 ≤ a → getCategoryKey c "attending" = "HIGH")
    ∧ (20 ≤ a → a < 50 → getCategoryKey c "attending" = "MED")
    ∧ (10 ≤ a → a < 20 → getCategoryKey c "attending" = "LOW")
    ∧ (5 ≤ a → a < 10 → getCategoryKey c "attending" = "VERY_LOW")
    ∧ (a < 5 → getCategoryKey c "attending" = "MIN") := by
  simp only [getCategoryKey, h, JSValue.ge, JSValue.toNumber, if_true, decide_eq_true_eq]
  refine ⟨?_, ?_, ?_, ?_, ?_⟩
  · intro h50
    rw [if_pos h50]
  · intro h20 h50
    rw [if_neg (not_le.mpr h50), if_pos h20]
  · intro h10 h20
    rw [if_neg (not_le.mpr (by linarith)), if_neg (not_le.mpr h20), if_pos h10]
  · intro h5 h10
    rw [if_neg (not_le.mpr (by linarith)), if_neg (not_le.mpr (by linarith)),
      if_neg (not_le.mpr h10), if_pos h5]
  · intro h5
    rw [if_neg (not_le.mpr (by linarith)), if_neg (not_le.mpr (by linarith)),
      if_neg (not_le.mpr (by linarith)), if_neg (not_le.mpr h5)]

/-- Witness of C3 at the boundary values: 49 is MED, 50 is HIGH, 19 is LOW, 20 is MED. -/
theorem getCategoryKey_attending_witness :
    getCategoryKey (attendingOnly 49) "attending" = "MED"
    ∧ getCategoryKey (attendingOnly 50) "attending" = "HIGH"
    ∧ getCategoryKey (attendingOnly 19) "attending" = "LOW"
    ∧ getCategoryKey (attendingOnly 20) "attending" = "MED" :=
  ⟨(getCategoryKey_attending (attendingOnly 49) 49 rfl).2.1 (by norm_num) (by norm_num),
   (getCategoryKey_attending (attendingOnly 50) 50 rfl).1 (by norm_num),
   (getCategoryKey_attending (attendingOnly 19) 19 rfl).2.2.1 (by norm_num) (by norm_num),
   (getCategoryKey_attending (attendingOnly 20) 20 rfl).2.1 (by norm_num) (by norm_num)⟩

/-- For a rate that is a number other than 0, the acceptance-mode key follows the
descending thresholds 5, 10, 20, 50, 80. -/
theorem getCategoryKey_acceptance_of_ne_zero (c : College) (r : ℚ) (h : c.rate = .num r)
    (h0 : r ≠ 0) :
    getCategoryKey c "acceptance" =
      if r < 5 then "EXTREME" else if r < 10 then "VERY_LOW" else if r < 20 then "LOW"
      else if r < 50 then "SELECTIVE" else if r < 80 then "MODERATE" else "OPEN" := by
  simp [getCategoryKey, h, JSValue.truthy, JSValue.lt, JSValue.toNumber, h0]

/-- C4, at the rate 0: the acceptance-mode key of an entity whose rate is the number 0 is
UNKNOWN, not EXTREME. -/
theorem getCategoryKey_zero_rate :
    zeroRateCollege.rate = .num 0
    ∧ getCategoryKey zeroRateCollege "acceptance" = "UNKNOWN"
    ∧ getCategoryKey zeroRateCollege "acceptance" ≠ "EXTREME" := by
  decide

/-- C5. Absent rate: every entity whose rate is null or undefined has the acceptance-mode
key UNKNOWN, whatever its other fields; the attendance-mode key of any two entities with
the same attendance is the same; and the entity of the scenario (attending 52, rate null)
is HIGH in attendance mode and UNKNOWN in acceptance mode. -/
theorem getCategoryKey_absent_rate :
    (∀ c : College, c.rate = .null ∨ c.rate = .undefined →
      getCategoryKey c "acceptance" = "UNKNOWN")
    ∧ (∀ c d : College, c.attending = d.attending →
      getCategoryKey c "attending" = getCategoryKey d "attending")
    ∧ getCategoryKey entityA "attending" = "HIGH"
    ∧ getCategoryKey entityA "acceptance" = "UNKNOWN" := by
  refine ⟨?_, ?_, by decide, by decide⟩
  · rintro c (h | h) <;> simp [getCategoryKey, h, JSValue.truthy]
  · intro c d h
    simp only [getCategoryKey, h, if_true]

/-! ### Coordinate guard -/

/-- The guard skips exactly the entities one of whose coordinates is falsy: the test for
the origin adds nothing. -/
theorem skipsCoordinate_iff (c : College) :
    skipsCoordinate c = true ↔ c.lat.truthy = false ∨ c.lng.truthy = false := by
  unfold skipsCoordinate
  cases hlat : c.lat <;> cases hlng : c.lng <;>
    simp [JSValue.truthy, JSValue.strictEqZero]
  rename_i p q
  intro hp hq
  simp [hp, hq] at *

/-- C10, on the equator: the entity with latitude 0 and longitude 10 has numeric
coordinates other than the origin and is skipped by the coordinate guard. -/
theorem skipsCoordinate_equator :
    equatorCollege.lat = .num 0 ∧ equatorCollege.lng = .num 10
    ∧ skipsCoordinate equatorCollege = true := by
  decide

end TileMap

namespace App

open TileMap

/-! ### Ingestion -/

/-- C9, on three records with the ids "A", "A", "A-1": `processData` returns the ids
"A", "A-1", "A-1", which are not pairwise distinct. -/
theorem processData_collision :
    (processData collidingRawData).map (fun c => c.id) = ["A", "A-1", "A-1"]
    ∧ ¬ ((processData collidingRawData).map (fun c => c.id)).Nodup := by
  decide

end App

namespace TileMap

/-! ### Drag and tap -/

/-- C13. Drag-versus-tap classification: `startDrag` resets the drag distance to 0; `onDrag`
while dragging adds `|dx| + |dy|` of the displacement from the drag start; `onDrag` while
idle changes nothing; a marker click calls `onSelect` with the id exactly when the drag
distance is below 5. Hence pointer-down, pointer-up, click selects, and pointer-down, a
move whose displacement from the start has length 10, pointer-up, click does not. -/
theorem drag_tap_classification :
    (∀ (s : MapState) (x y : ℝ), (startDrag s x y).dragDistance = 0)
    ∧ (∀ (s : MapState) (x y : ℝ), s.isDragging = true →
        (onDrag s x y).dragDistance
          = s.dragDistance + |x - s.dragStart.x| + |y - s.dragStart.y|)
    ∧ (∀ (s : MapState) (x y : ℝ), s.isDragging = false → onDrag s x y = s)
    ∧ (∀ (s : MapState) (id : String),
        handleMarkerClick s id = some id ↔ s.dragDistance < 5)
    ∧ (∀ (s : MapState) (id : String),
        handleMarkerClick s id = none ↔ ¬ s.dragDistance < 5)
    ∧ (∀ (s : MapState) (x y : ℝ) (id : String),
        handleMarkerClick (endDrag (startDrag s x y)) id = some id)
    ∧ (∀ (s : MapState) (x y dx dy : ℝ) (id : String), dx ^ 2 + dy ^ 2 = 10 ^ 2 →
        handleMarkerClick (endDrag (onDrag (startDrag s x y) (x + dx) (y + dy))) id = none) := by
  refine ⟨fun s x y => rfl, ?_, ?_, ?_, ?_, ?_, ?_⟩
  · intro s x y h
    simp [onDrag, h]
  · intro s x y h
    simp [onDrag, h]
  · intro s id
    unfold handleMarkerClick
    split <;> simp [*]
  · intro s id
    unfold handleMarkerClick
    split <;> simp [*]
  · intro s x y id
    simp [handleMarkerClick, endDrag, startDrag]
  · intro s x y dx dy id h
    have habs : 10 ≤ |dx| + |dy| := by
      have h1 : (|dx| + |dy|) ^ 2 = dx ^ 2 + dy ^ 2 + 2 * (|dx| * |dy|) := by
        rw [add_sq, sq_abs, sq_abs]; ring
      have h2 : 0 ≤ |dx| * |dy| := mul_nonneg (abs_nonneg dx) (abs_nonneg dy)
      have h3 : 0 ≤ |dx| + |dy| := add_nonneg (abs_nonneg dx) (abs_nonneg dy)
      nlinarith
    have hd : (endDrag (onDrag (startDrag s x y) (x + dx) (y + dy))).dragDistance
        = |dx| + |dy| := by
      simp [endDrag, onDrag, startDrag]
    unfold handleMarkerClick
    rw [hd, if_neg (by linarith)]

/-- C14. Pan is a pure translation, over the reals: while dragging from a start center with
latitude strictly between -90 and 90, `onDrag` at a pointer position with displacement
`(dx, dy)` from the drag start sets a center whose world pixel at the current zoom is the
world pixel of the start center minus `(dx, dy)`, and leaves the zoom unchanged; while
idle, `onDrag` leaves the viewport unchanged. -/
theorem onDrag_translation (s : MapState) (x y : ℝ)
    (_h1 : -90 < s.startViewport.lat) (_h2 : s.startViewport.lat < 90) :
    (s.isDragging = true →
      latLngToPx (onDrag s x y).viewport.lat (onDrag s x y).viewport.lng s.viewport.zoom
          = { x := (latLngToPx s.startViewport.lat s.startViewport.lng s.viewport.zoom).x
                  - (x - s.dragStart.x)
              y := (latLngToPx s.startViewport.lat s.startViewport.lng s.viewport.zoom).y
                  - (y - s.dragStart.y) }
        ∧ (onDrag s x y).viewport.zoom = s.viewport.zoom)
    ∧ (s.isDragging = false → (onDrag s x y).viewport = s.viewport) := by
  constructor
  · intro h
    simp only [onDrag, h, Bool.not_true, Bool.false_eq_true, if_false, latLngToPx_pxToLatLng,
      and_self]
  · intro h
    simp [onDrag, h]

/-- Witness of C14: a drag started at the initial state at the pointer position (0, 0) and
moved to (10, 20) shifts the world pixel of the center by (-10, -20) at zoom 4. -/
theorem onDrag_translation_witness :
    (startDrag initialState 0 0).isDragging = true
    ∧ latLngToPx (onDrag (startDrag initialState 0 0) 10 20).viewport.lat
          (onDrag (startDrag initialState 0 0) 10 20).viewport.lng 4
        = { x := (latLngToPx initialViewport.lat initialViewport.lng 4).x - 10
            y := (latLngToPx initialViewport.lat initialViewport.lng 4).y - 20 }
    ∧ (onDrag (startDrag initialState 0 0) 10 20).viewport.zoom = 4 := by
  have h := (onDrag_translation (startDrag initialState 0 0) 10 20
    (by norm_num [startDrag, initialState, initialViewport])
    (by norm_num [startDrag, initialState, initialViewport])).1 rfl
  refine ⟨rfl, ?_, ?_⟩
  · have h1 := h.1
    simp only [startDrag, initialState, sub_zero] at h1 ⊢
    exact h1
  · have h2 := h.2
    simp only [startDrag, initialState] at h2 ⊢
    rw [h2]; rfl

/-! ### Markers and the scaled tile layer -/

theorem scale_mul_two_rpow_tileZoom (viewport : Viewport) :
    scale viewport * (2 : ℝ) ^ ((tileZoom viewport : ℤ) : ℝ) = (2 : ℝ) ^ viewport.zoom := by
  unfold scale
  rw [← Real.rpow_add (by norm_num : (0 : ℝ) < 2)]
  congr 1
  ring

theorem scale_pos (viewport : Viewport) : 0 < scale viewport := two_rpow_pos _

/-- The world pixel at the fractional zoom is the world pixel at the tile zoom, scaled. -/
theorem latLngToPx_zoom_eq_scale_mul (viewport : Viewport) (lat lng : ℝ) :
    (latLngToPx lat lng viewport.zoom).x
        = (latLngToPx lat lng (tileZoom viewport)).x * scale viewport
    ∧ (latLngToPx lat lng viewport.zoom).y
        = (latLngToPx lat lng (tileZoom viewport)).y * scale viewport := by
  simp only [latLngToPx, ← scale_mul_two_rpow_tileZoom viewport]
  constructor <;> ring

/-- C18. Markers stay registered with the scaled tile layer, over the reals: for every
viewport with center latitude strictly between -90 and 90, every surface size and every
point with latitude strictly between -90 and 90, the screen position computed at the
fractional zoom equals the position on the tile layer, that is the offset from the
top-left world pixel at the tile zoom, times the scale. -/
theorem marker_registered_with_tiles (viewport : Viewport) (width height lat lng : ℝ)
    (_hc1 : -90 < viewport.lat) (_hc2 : viewport.lat < 90)
    (_hp1 : -90 < lat) (_hp2 : lat < 90) :
    (latLngToPx lat lng viewport.zoom).x - (viewportTlPx viewport width height).x
        = ((latLngToPx lat lng (tileZoom viewport)).x
            - (viewportTlPxTile viewport width height).x) * scale viewport
    ∧ (latLngToPx lat lng viewport.zoom).y - (viewportTlPx viewport width height).y
        = ((latLngToPx lat lng (tileZoom viewport)).y
            - (viewportTlPxTile viewport width height).y) * scale viewport := by
  have hs : scale viewport ≠ 0 := (scale_pos viewport).ne'
  have hp := latLngToPx_zoom_eq_scale_mul viewport lat lng
  have hc := latLngToPx_zoom_eq_scale_mul viewport viewport.lat viewport.lng
  simp only [viewportTlPx, viewportTlPxTile]
  rw [hp.1, hp.2, hc.1, hc.2]
  constructor <;> field_simp <;> ring

end TileMap

namespace TileMap

/-! ### Colour and radius -/

/-- The colour of a marker is read off its category key: the colour of the table entry of
the mode under that key, and the fixed grey when the key is UNKNOWN. -/
theorem getMarkerColor_eq_lookup (c : College) (mode : String) :
    getMarkerColor c mode =
      match COLORS.lookup (colorGroup mode) (getCategoryKey c mode) with
      | some entry => entry.color
      | none => "#94a3b8" := by
  by_cases hm : mode = "attending"
  · subst hm
    unfold getMarkerColor getCategoryKey
    generalize c.attending.ge 50 = b1
    generalize c.attending.ge 20 = b2
    generalize c.attending.ge 10 = b3
    generalize c.attending.ge 5 = b4
    cases b1 <;> cases b2 <;> cases b3 <;> cases b4 <;> rfl
  · unfold getMarkerColor getCategoryKey colorGroup
    rw [if_neg hm, if_neg hm, if_neg hm]
    generalize c.rate.truthy = b0
    generalize c.rate.lt 5 = b1
    generalize c.rate.lt 10 = b2
    generalize c.rate.lt 20 = b3
    generalize c.rate.lt 50 = b4
    generalize c.rate.lt 80 = b5
    cases b0 <;> cases b1 <;> cases b2 <;> cases b3 <;> cases b4 <;> cases b5 <;> rfl

/-- The radius of a marker is read off its category key, in the two modes of the
dashboard: the radius of the table entry, and 8 when the key is UNKNOWN. -/
theorem getMarkerRadius_eq_lookup (c : College) (mode : String)
    (hmode : mode = "attending" ∨ mode = "acceptance") :
    getMarkerRadius c mode =
      match COLORS.lookup (colorGroup mode) (getCategoryKey c mode) with
      | some entry => entry.radius
      | none => 8 := by
  rcases hmode with hm | hm
  · subst hm
    unfold getMarkerRadius getCategoryKey
    dsimp only
    generalize c.attending.ge 50 = b1
    generalize c.attending.ge 20 = b2
    generalize c.attending.ge 10 = b3
    generalize c.attending.ge 5 = b4
    cases b1 <;> cases b2 <;> cases b3 <;> cases b4 <;> rfl
  · subst hm
    unfold getMarkerRadius getCategoryKey
    dsimp only
    generalize c.rate.truthy = b0
    generalize c.rate.lt 5 = b1
    generalize c.rate.lt 10 = b2
    generalize c.rate.lt 20 = b3
    generalize c.rate.lt 50 = b4
    generalize c.rate.lt 80 = b5
    cases b0 <;> cases b1 <;> cases b2 <;> cases b3 <;> cases b4 <;> cases b5 <;> rfl

theorem lookup_unknown (group : String) : COLORS.lookup group "UNKNOWN" = none := by
  unfold COLORS.lookup
  by_cases h1 : group = "ATTENDING"
  · rw [if_pos h1]; rfl
  · rw [if_neg h1]
    by_cases h2 : group = "ACCEPTANCE"
    · rw [if_pos h2]; rfl
    · rw [if_neg h2]

theorem lookup_isSome_of_ne_unknown (c : College) (mode : String)
    (h : getCategoryKey c mode ≠ "UNKNOWN") :
    ∃ entry, COLORS.lookup (colorGroup mode) (getCategoryKey c mode) = some entry := by
  revert h
  by_cases hm : mode = "attending"
  · subst hm
    unfold getCategoryKey
    generalize c.attending.ge 50 = b1
    generalize c.attending.ge 20 = b2
    generalize c.attending.ge 10 = b3
    generalize c.attending.ge 5 = b4
    intro _
    cases b1 <;> cases b2 <;> cases b3 <;> cases b4 <;> exact ⟨_, rfl⟩
  · unfold getCategoryKey colorGroup
    rw [if_neg hm, if_neg hm]
    generalize c.rate.truthy = b0
    generalize c.rate.lt 5 = b1
    generalize c.rate.lt 10 = b2
    generalize c.rate.lt 20 = b3
    generalize c.rate.lt 50 = b4
    generalize c.rate.lt 80 = b5
    intro h
    cases b0
    · exact absurd rfl h
    · cases b1 <;> cases b2 <;> cases b3 <;> cases b4 <;> cases b5 <;> exact ⟨_, rfl⟩

/-- C17. Colour and radius are functions of the category key: in attendance and in
acceptance mode, two entities with the same category key get the same colour and the same
radius; and for every entity the colour and radius are the `color` and `radius` fields of
the entry of the table of the mode under its category key, with colour #94a3b8 and radius
8 for the key UNKNOWN. -/
theorem color_radius_of_category (mode : String)
    (hmode : mode = "attending" ∨ mode = "acceptance") :
    (∀ e1 e2 : College, getCategoryKey e1 mode = getCategoryKey e2 mode →
      getMarkerColor e1 mode = getMarkerColor e2 mode
        ∧ getMarkerRadius e1 mode = getMarkerRadius e2 mode)
    ∧ (∀ c : College, getCategoryKey c mode = "UNKNOWN" →
        getMarkerColor c mode = "#94a3b8" ∧ getMarkerRadius c mode = 8)
    ∧ (∀ c : College, getCategoryKey c mode ≠ "UNKNOWN" →
        ∃ entry, COLORS.lookup (colorGroup mode) (getCategoryKey c mode) = some entry
          ∧ getMarkerColor c mode = entry.color ∧ getMarkerRadius c mode = entry.radius) := by
  refine ⟨?_, ?_, ?_⟩
  · intro e1 e2 h
    rw [getMarkerColor_eq_lookup e1, getMarkerColor_eq_lookup e2,
      getMarkerRadius_eq_lookup e1 mode hmode, getMarkerRadius_eq_lookup e2 mode hmode, h]
    exact ⟨rfl, rfl⟩
  · intro c h
    rw [getMarkerColor_eq_lookup c, getMarkerRadius_eq_lookup c mode hmode, h, lookup_unknown]
    exact ⟨rfl, rfl⟩
  · intro c h
    obtain ⟨entry, he⟩ := lookup_isSome_of_ne_unknown c mode h
    refine ⟨entry, he, ?_, ?_⟩
    · rw [getMarkerColor_eq_lookup c, he]
    · rw [getMarkerRadius_eq_lookup c mode hmode, he]

/-- Witness of C17 in attendance mode: the entity with attendance 52 has the colour and
the radius of the entry HIGH. -/
theorem color_radius_of_category_witness :
    getCategoryKey entityA "attending" = "HIGH"
    ∧ ∃ entry, COLORS.lookup (colorGroup "attending") (getCategoryKey entityA "attending")
          = some entry
        ∧ getMarkerColor entityA "attending" = entry.color
        ∧ getMarkerRadius entityA "attending" = entry.radius :=
  ⟨by decide, (color_radius_of_category "attending" (Or.inl rfl)).2.2 entityA (by decide)⟩

end TileMap

namespace App

open TileMap

/-! ### Average acceptance rate -/

theorem roundHalfEven_eq_of_near (x : ℚ) (m : ℤ)
    (h : |x - m| < 1 / 2 ∨ (|x - m| = 1 / 2 ∧ m % 2 = 0)) : roundHalfEven x = m := by
  unfold roundHalfEven
  rcases h with h | ⟨h, hm⟩
  · rw [abs_lt] at h
    by_cases hx : (m : ℚ) ≤ x
    · have hf : ⌊x⌋ = m := by
        rw [Int.floor_eq_iff]; constructor <;> linarith
      rw [hf, if_pos (by linarith)]
    · push_neg at hx
      have hf : ⌊x⌋ = m - 1 := by
        rw [Int.floor_eq_iff]; push_cast; constructor <;> linarith
      rw [hf, if_neg (by push_cast; linarith), if_pos (by push_cast; linarith)]
      ring
  · by_cases hx : (m : ℚ) ≤ x
    · have hx2 : x - m = 1 / 2 := by rwa [abs_of_nonneg (by linarith)] at h
      have hf : ⌊x⌋ = m := by
        rw [Int.floor_eq_iff]; constructor <;> linarith
      rw [hf, if_neg (by linarith), if_neg (by linarith), if_pos hm]
    · push_neg at hx
      have hx2 : -(x - m) = 1 / 2 := by rwa [abs_of_neg (by linarith)] at h
      have hf : ⌊x⌋ = m - 1 := by
        rw [Int.floor_eq_iff]; push_cast; constructor <;> linarith
      have hodd : ¬ (m - 1) % 2 = 0 := by omega
      rw [hf, if_neg (by push_cast; linarith), if_neg (by push_cast; linarith), if_neg hodd]
      ring

/-- Evaluation of the rounding from the binade of the value and the nearest multiple of
the spacing. -/
theorem toDouble_eq (q : ℚ) (e m : ℤ) (hq : q ≠ 0) (he : -1022 ≤ e)
    (hlo : (2 : ℚ) ^ e ≤ |q|) (hhi : |q| < (2 : ℚ) ^ (e + 1))
    (hm : |q / 2 ^ (e - 52) - m| < 1 / 2 ∨ (|q / 2 ^ (e - 52) - m| = 1 / 2 ∧ m % 2 = 0))
    (hfin : |(m : ℚ) * 2 ^ (e - 52)| < 2 ^ 1024) :
    toDouble q = .fin (m * 2 ^ (e - 52)) := by
  have hpos : 0 < |q| := abs_pos.mpr hq
  have hlog : Int.log 2 |q| = e := by
    apply le_antisymm
    · have := (Int.lt_zpow_iff_log_lt (b := 2) (by norm_num) hpos (x := e + 1)).mp
        (by exact_mod_cast hhi)
      omega
    · exact (Int.zpow_le_iff_le_log (b := 2) (by norm_num) hpos).mp (by exact_mod_cast hlo)
  unfold toDouble
  rw [if_neg hq]
  simp only [hlog, max_eq_left he, roundHalfEven_eq_of_near _ m hm]
  rw [if_neg (not_le.mpr hfin)]

/-- Evaluation of the rounding at a positive value that is not a tie. -/
theorem toDouble_of_pos (q : ℚ) (e m : ℤ) (hq : 0 < q) (he : -1022 ≤ e)
    (hlo : (2 : ℚ) ^ e ≤ q) (hhi : q < (2 : ℚ) ^ (e + 1))
    (h1 : q / 2 ^ (e - 52) - m < 1 / 2) (h2 : (m : ℚ) - q / 2 ^ (e - 52) < 1 / 2)
    (hfin : (m : ℚ) * 2 ^ (e - 52) < 2 ^ 1024) :
    toDouble q = .fin (m * 2 ^ (e - 52)) := by
  have hu : (0 : ℚ) < 2 ^ (e - 52) := zpow_pos (by norm_num) _
  have hx : 0 < q / 2 ^ (e - 52) := div_pos hq hu
  have hm0 : (0 : ℚ) ≤ m := by
    have : (-1 : ℚ) < m := by linarith
    have h' : (-1 : ℤ) < m := by exact_mod_cast this
    exact_mod_cast (by omega : (0 : ℤ) ≤ m)
  apply toDouble_eq q e m hq.ne' he
  · rwa [abs_of_pos hq]
  · rwa [abs_of_pos hq]
  · left
    rw [abs_lt]
    constructor <;> linarith
  · rwa [abs_of_nonneg (mul_nonneg hm0 hu.le)]

/-- Evaluation of the rounding at a positive value half way between two doubles. -/
theorem toDouble_of_pos_tie (q : ℚ) (e m : ℤ) (hq : 0 < q) (he : -1022 ≤ e)
    (hlo : (2 : ℚ) ^ e ≤ q) (hhi : q < (2 : ℚ) ^ (e + 1))
    (h1 : q / 2 ^ (e - 52) - m = 1 / 2 ∨ (m : ℚ) - q / 2 ^ (e - 52) = 1 / 2)
    (heven : m % 2 = 0)
    (hfin : (m : ℚ) * 2 ^ (e - 52) < 2 ^ 1024) :
    toDouble q = .fin (m * 2 ^ (e - 52)) := by
  have hu : (0 : ℚ) < 2 ^ (e - 52) := zpow_pos (by norm_num) _
  have hx : 0 < q / 2 ^ (e - 52) := div_pos hq hu
  have hm0 : (0 : ℚ) ≤ m := by
    have : (-1 : ℚ) < m := by rcases h1 with h | h <;> linarith
    have h' : (-1 : ℤ) < m := by exact_mod_cast this
    exact_mod_cast (by omega : (0 : ℤ) ≤ m)
  apply toDouble_eq q e m hq.ne' he
  · rwa [abs_of_pos hq]
  · rwa [abs_of_pos hq]
  · right
    refine ⟨?_, heven⟩
    rcases h1 with h | h
    · rw [h]; norm_num
    · have : q / 2 ^ (e - 52) - m = -(1 / 2) := by linarith
      rw [this]; norm_num
  · rwa [abs_of_nonneg (mul_nonneg hm0 hu.le)]


/-! #### Evaluations in double precision -/

theorem fractionalRates_rate1 : numberOf (.num 1.4) = .fin (3152519739159347 / 2251799813685248) := by
  show toDouble 1.4 = _
  rw [toDouble_of_pos (1.4) (0) 6305039478318694 (by norm_num) (by norm_num) (by norm_num)
      (by norm_num) (by norm_num) (by norm_num) (by norm_num)]
  norm_num

theorem fractionalRates_rate2 : numberOf (.num 2.8) = .fin (3152519739159347 / 1125899906842624) := by
  show toDouble 2.8 = _
  rw [toDouble_of_pos (2.8) (1) 6305039478318694 (by norm_num) (by norm_num) (by norm_num)
      (by norm_num) (by norm_num) (by norm_num) (by norm_num)]
  norm_num

theorem fractionalRates_rate3 : numberOf (.num 3.3) = .fin (3715469692580659 / 1125899906842624) := by
  show toDouble 3.3 = _
  rw [toDouble_of_pos (3.3) (1) 7430939385161318 (by norm_num) (by norm_num) (by norm_num)
      (by norm_num) (by norm_num) (by norm_num) (by norm_num)]
  norm_num

theorem fractionalRates_sum1 :
    jsAdd (.fin (0)) (.fin (3152519739159347 / 2251799813685248)) = .fin (3152519739159347 / 2251799813685248) := by
  show toDouble (0 + 3152519739159347 / 2251799813685248) = _
  rw [toDouble_of_pos (0 + 3152519739159347 / 2251799813685248) (0) 6305039478318694 (by norm_num) (by norm_num) (by norm_num)
      (by norm_num) (by norm_num) (by norm_num) (by norm_num)]
  norm_num

theorem fractionalRates_sum2 :
    jsAdd (.fin (3152519739159347 / 2251799813685248)) (.fin (3152519739159347 / 1125899906842624)) = .fin (1182194902184755 / 281474976710656) := by
  show toDouble (3152519739159347 / 2251799813685248 + 3152519739159347 / 1125899906842624) = _
  rw [toDouble_of_pos_tie (3152519739159347 / 2251799813685248 + 3152519739159347 / 1125899906842624) (2) 4728779608739020 (by norm_num) (by norm_num) (by norm_num)
      (by norm_num) (Or.inl (by norm_num)) (by norm_num) (by norm_num)]
  norm_num

theorem fractionalRates_sum3 :
    jsAdd (.fin (1182194902184755 / 281474976710656)) (.fin (3715469692580659 / 1125899906842624)) = .fin (8444249301319679 / 1125899906842624) := by
  show toDouble (1182194902184755 / 281474976710656 + 3715469692580659 / 1125899906842624) = _
  rw [toDouble_of_pos (1182194902184755 / 281474976710656 + 3715469692580659 / 1125899906842624) (2) 8444249301319679 (by norm_num) (by norm_num) (by norm_num)
      (by norm_num) (by norm_num) (by norm_num) (by norm_num)]
  norm_num

theorem fractionalRates_quotient :
    divideByLength (.fin (8444249301319679 / 1125899906842624)) 3 = some (.fin (5629499534213119 / 2251799813685248)) := by
  show some (toDouble (8444249301319679 / 1125899906842624 / ((3 : ℕ) : ℚ))) = _
  rw [toDouble_of_pos (8444249301319679 / 1125899906842624 / ((3 : ℕ) : ℚ)) (1) 5629499534213119 (by norm_num) (by norm_num) (by norm_num)
      (by norm_num) (by norm_num) (by norm_num) (by norm_num)]
  norm_num

theorem nearHalfRates_rate1 : numberOf (.num 2.4999999999999996) = .fin (5629499534213119 / 2251799813685248) := by
  show toDouble 2.4999999999999996 = _
  rw [toDouble_of_pos (2.4999999999999996) (1) 5629499534213119 (by norm_num) (by norm_num) (by norm_num)
      (by norm_num) (by norm_num) (by norm_num) (by norm_num)]
  norm_num

theorem nearHalfRates_rate2 : numberOf (.num 2.5) = .fin (5 / 2) := by
  show toDouble 2.5 = _
  rw [toDouble_of_pos (2.5) (1) 5629499534213120 (by norm_num) (by norm_num) (by norm_num)
      (by norm_num) (by norm_num) (by norm_num) (by norm_num)]
  norm_num

theorem nearHalfRates_sum1 :
    jsAdd (.fin (0)) (.fin (5629499534213119 / 2251799813685248)) = .fin (5629499534213119 / 2251799813685248) := by
  show toDouble (0 + 5629499534213119 / 2251799813685248) = _
  rw [toDouble_of_pos (0 + 5629499534213119 / 2251799813685248) (1) 5629499534213119 (by norm_num) (by norm_num) (by norm_num)
      (by norm_num) (by norm_num) (by norm_num) (by norm_num)]
  norm_num

theorem nearHalfRates_sum2 :
    jsAdd (.fin (5629499534213119 / 2251799813685248)) (.fin (5 / 2)) = .fin (5) := by
  show toDouble (5629499534213119 / 2251799813685248 + 5 / 2) = _
  rw [toDouble_of_pos_tie (5629499534213119 / 2251799813685248 + 5 / 2) (2) 5629499534213120 (by norm_num) (by norm_num) (by norm_num)
      (by norm_num) (Or.inr (by norm_num)) (by norm_num) (by norm_num)]
  norm_num

theorem nearHalfRates_quotient :
    divideByLength (.fin (5)) 2 = some (.fin (5 / 2)) := by
  show some (toDouble (5 / ((2 : ℕ) : ℚ))) = _
  rw [toDouble_of_pos (5 / ((2 : ℕ) : ℚ)) (1) 5629499534213120 (by norm_num) (by norm_num) (by norm_num)
      (by norm_num) (by norm_num) (by norm_num) (by norm_num)]
  norm_num

theorem wholeRates_rate1 : numberOf (.num 10) = .fin (10) := by
  show toDouble 10 = _
  rw [toDouble_of_pos (10) (3) 5629499534213120 (by norm_num) (by norm_num) (by norm_num)
      (by norm_num) (by norm_num) (by norm_num) (by norm_num)]
  norm_num

theorem wholeRates_rate2 : numberOf (.num 15) = .fin (15) := by
  show toDouble 15 = _
  rw [toDouble_of_pos (15) (3) 8444249301319680 (by norm_num) (by norm_num) (by norm_num)
      (by norm_num) (by norm_num) (by norm_num) (by norm_num)]
  norm_num

theorem wholeRates_sum1 :
    jsAdd (.fin (0)) (.fin (10)) = .fin (10) := by
  show toDouble (0 + 10) = _
  rw [toDouble_of_pos (0 + 10) (3) 5629499534213120 (by norm_num) (by norm_num) (by norm_num)
      (by norm_num) (by norm_num) (by norm_num) (by norm_num)]
  norm_num

theorem wholeRates_sum2 :
    jsAdd (.fin (10)) (.fin (15)) = .fin (25) := by
  show toDouble (10 + 15) = _
  rw [toDouble_of_pos (10 + 15) (4) 7036874417766400 (by norm_num) (by norm_num) (by norm_num)
      (by norm_num) (by norm_num) (by norm_num) (by norm_num)]
  norm_num

theorem wholeRates_quotient :
    divideByLength (.fin (25)) 2 = some (.fin (25 / 2)) := by
  show some (toDouble (25 / ((2 : ℕ) : ℚ))) = _
  rw [toDouble_of_pos (25 / ((2 : ℕ) : ℚ)) (3) 7036874417766400 (by norm_num) (by norm_num) (by norm_num)
      (by norm_num) (by norm_num) (by norm_num) (by norm_num)]
  norm_num

/-! #### The average -/

theorem rateColleges_eq_nil_iff (colleges : List College) :
    rateColleges colleges = []
      ↔ ∀ c ∈ colleges, c.rate = .null ∨ c.rate = .undefined := by
  unfold rateColleges
  rw [List.filter_eq_nil_iff]
  constructor
  · intro h c hc
    have := h c hc
    by_cases h1 : c.rate = .null
    · exact Or.inl h1
    · by_cases h2 : c.rate = .undefined
      · exact Or.inr h2
      · simp [h1, h2] at this
  · intro h c hc
    rcases h c hc with h1 | h1 <;> simp [h1]

theorem rateColleges_insert_absent (l₁ l₂ : List College) (c : College)
    (h : c.rate = .null ∨ c.rate = .undefined) :
    rateColleges (l₁ ++ c :: l₂) = rateColleges (l₁ ++ l₂) := by
  unfold rateColleges
  rw [List.filter_append, List.filter_append]
  congr 1
  rcases h with h | h <;> simp [List.filter_cons, h]

theorem avgAcceptanceRate_isSome (colleges : List College) :
    (avgAcceptanceRate colleges).isSome = true := by
  unfold avgAcceptanceRate divideByLength
  by_cases h : (rateColleges colleges).length = 0
  · simp [h]
  · simp only [ne_eq, h, not_false_eq_true, if_true, if_false]
    split <;> rfl

/-- The average from the doubles of the present rates: their sum from the left, divided by
their number, rounded by `Math.round`. -/
theorem avgAcceptanceRate_of_doubles (colleges : List College) (ds : List Double)
    (s q : Double)
    (hp : (rateColleges colleges).map (fun c => numberOf c.rate) = ds) (hne : ds ≠ [])
    (hs : ds.foldl jsAdd (.fin 0) = s) (hq : divideByLength s ds.length = some q) :
    avgAcceptanceRate colleges = some (mathRound q) := by
  have hlen : (rateColleges colleges).length = ds.length := by
    rw [← hp, List.length_map]
  have hpos : ds.length ≠ 0 := fun h0 => hne (List.length_eq_zero.mp h0)
  have hfold : (rateColleges colleges).foldl (fun sum c => jsAdd sum (numberOf c.rate))
      (.fin 0) = s := by
    rw [← hs, ← hp, List.foldl_map]
  unfold avgAcceptanceRate
  rw [hfold, hlen, if_pos hpos, hq]
  rfl

theorem jsAdd_nan_left (d : Double) : jsAdd .nan d = .nan := by
  cases d <;> rfl

theorem jsAdd_nan_right (d : Double) : jsAdd d .nan = .nan := by
  cases d <;> rfl

theorem foldl_jsAdd_nan (ds : List Double) : ds.foldl jsAdd .nan = .nan := by
  induction ds with
  | nil => rfl
  | cons d rest ih => rw [List.foldl_cons, jsAdd_nan_left, ih]

theorem foldl_jsAdd_of_mem_nan (ds : List Double) (h : Double.nan ∈ ds) (init : Double) :
    ds.foldl jsAdd init = .nan := by
  induction ds generalizing init with
  | nil => simp at h
  | cons d rest ih =>
    rw [List.foldl_cons]
    rcases List.mem_cons.mp h with h1 | h1
    · rw [← h1, jsAdd_nan_right, foldl_jsAdd_nan]
    · exact ih h1 _

/-- The sum from the left is exact when the rates are doubles and no partial sum is
rounded. -/
theorem foldl_jsAdd_exact (rates : List ℚ) :
    ∀ a : ℚ, (∀ r ∈ rates, toDouble r = .fin r) →
      (∀ k : ℕ, 1 ≤ k → k ≤ rates.length →
        toDouble (a + (rates.take k).sum) = .fin (a + (rates.take k).sum)) →
      (rates.map fun r => numberOf (.num r)).foldl jsAdd (.fin a) = .fin (a + rates.sum) := by
  induction rates with
  | nil => intro a _ _; simp
  | cons r rest ih =>
    intro a hr hk
    have h1 : numberOf (.num r) = .fin r := hr r (List.mem_cons_self _ _)
    have h2 : jsAdd (.fin a) (.fin r) = .fin (a + r) := by
      have := hk 1 (le_refl 1) (by simp)
      simpa using this
    rw [List.map_cons, List.foldl_cons, h1, h2,
      ih (a + r) (fun x hx => hr x (List.mem_cons_of_mem _ hx)) ?_, List.sum_cons, add_assoc]
    intro k hk1 hk2
    have := hk (k + 1) (by omega) (by simp; omega)
    simpa [List.take_succ_cons, add_assoc] using this

end App

namespace App

open TileMap

/-- C12, as amended: the rate average is total and ignores absent rates. It is 0 when no
entity has a present (non-null, non-undefined) rate. Otherwise it is `Math.round` of the
double-precision quotient, by their number, of the double-precision sum from the left of
the present rates; that is the arithmetic mean rounded to the nearest integer, halves up,
whenever the rates are doubles and neither a partial sum nor the quotient is rounded, and
it is NaN when a present rate is NaN. The division is never performed with a zero
divisor, and inserting or removing an entity with an absent rate does not change the
result. -/
theorem avgAcceptanceRate_spec :
    (∀ colleges : List College,
      (∀ c ∈ colleges, c.rate = .null ∨ c.rate = .undefined) →
        avgAcceptanceRate colleges = some (.fin 0))
    ∧ (∀ colleges : List College, rateColleges colleges ≠ [] →
        ∃ q, divideByLength
              (((rateColleges colleges).map fun c => numberOf c.rate).foldl jsAdd (.fin 0))
              (rateColleges colleges).length = some q
          ∧ avgAcceptanceRate colleges = some (mathRound q))
    ∧ (∀ (colleges : List College) (rates : List ℚ), rates ≠ [] →
        (rateColleges colleges).map (fun c => c.rate) = rates.map JSValue.num →
        (∀ r ∈ rates, toDouble r = .fin r) →
        (∀ k : ℕ, 1 ≤ k → k ≤ rates.length →
          toDouble ((rates.take k).sum) = .fin ((rates.take k).sum)) →
        toDouble (rates.sum / (rates.length : ℚ)) = .fin (rates.sum / (rates.length : ℚ)) →
        avgAcceptanceRate colleges
          = some (.fin ((⌊rates.sum / (rates.length : ℚ) + 1 / 2⌋ : ℤ) : ℚ)))
    ∧ (∀ colleges : List College, (∃ c ∈ colleges, c.rate = .nan) →
        avgAcceptanceRate colleges = some .nan)
    ∧ (∀ colleges : List College, (avgAcceptanceRate colleges).isSome = true)
    ∧ (∀ (l₁ l₂ : List College) (c : College), c.rate = .null ∨ c.rate = .undefined →
        avgAcceptanceRate (l₁ ++ c :: l₂) = avgAcceptanceRate (l₁ ++ l₂)) := by
  refine ⟨?_, ?_, ?_, ?_, avgAcceptanceRate_isSome, ?_⟩
  · intro colleges h
    have hnil := (rateColleges_eq_nil_iff colleges).mpr h
    simp [avgAcceptanceRate, hnil]
  · intro colleges hne
    have hlen : (rateColleges colleges).length ≠ 0 :=
      fun h0 => hne (List.length_eq_zero.mp h0)
    have hd : ∃ q, divideByLength
        (((rateColleges colleges).map fun c => numberOf c.rate).foldl jsAdd (.fin 0))
        (rateColleges colleges).length = some q := by
      unfold divideByLength
      rw [if_neg hlen]
      split <;> exact ⟨_, rfl⟩
    obtain ⟨q, hq⟩ := hd
    refine ⟨q, hq, ?_⟩
    apply avgAcceptanceRate_of_doubles colleges _ _ q rfl
    · intro h0
      exact hne (List.map_eq_nil_iff.mp h0)
    · rfl
    · rw [List.length_map]; exact hq
  · intro colleges rates hne hp hr hk hq
    have hds : (rateColleges colleges).map (fun c => numberOf c.rate)
        = rates.map fun r => numberOf (.num r) := by
      have := congrArg (List.map numberOf) hp
      simpa [List.map_map, Function.comp_def] using this
    have hsum := foldl_jsAdd_exact rates 0 hr (by simpa using hk)
    rw [zero_add] at hsum
    have hlen : (rates.map fun r => numberOf (.num r)).length = rates.length :=
      List.length_map _ _
    have hpos : rates.length ≠ 0 := fun h0 => hne (List.length_eq_zero.mp h0)
    have := avgAcceptanceRate_of_doubles colleges _ (.fin rates.sum)
      (.fin (rates.sum / (rates.length : ℚ))) hds
      (fun h0 => hne (List.map_eq_nil_iff.mp h0)) hsum
      (by rw [hlen]; unfold divideByLength; rw [if_neg hpos]; simp only; rw [hq])
    rw [this]
    rfl
  · rintro colleges ⟨c, hc, hnan⟩
    have hmem : c ∈ rateColleges colleges := by
      unfold rateColleges
      rw [List.mem_filter]
      exact ⟨hc, by simp [hnan]⟩
    have hd : Double.nan ∈ (rateColleges colleges).map fun c => numberOf c.rate := by
      rw [List.mem_map]
      exact ⟨c, hmem, by rw [hnan]; rfl⟩
    have hne : (rateColleges colleges).length ≠ 0 := by
      intro h0
      rw [List.length_eq_zero.mp h0] at hmem
      simp at hmem
    have := avgAcceptanceRate_of_doubles colleges _ .nan .nan rfl
      (List.ne_nil_of_mem hd) (foldl_jsAdd_of_mem_nan _ hd _)
      (by unfold divideByLength; rw [List.length_map, if_neg hne])
    rw [this]
    rfl
  · intro l₁ l₂ c h
    unfold avgAcceptanceRate
    rw [rateColleges_insert_absent l₁ l₂ c h]

/-- Witness of C12 as amended: of the scenario entity (rate null) and two entities with
the rates 10 and 15, whose sum 25 and mean 12.5 are doubles, the average is 13. -/
theorem avgAcceptanceRate_witness : avgAcceptanceRate wholeRates = some (.fin 13) := by
  have h10 : toDouble 10 = .fin 10 := wholeRates_rate1
  have h15 : toDouble 15 = .fin 15 := wholeRates_rate2
  have h25 : toDouble 25 = .fin 25 := by
    have := wholeRates_sum2
    have h : jsAdd (.fin 10) (.fin 15) = toDouble 25 := by
      show toDouble (10 + 15) = toDouble 25
      norm_num
    rw [← h]; exact this
  have hq : toDouble (25 / 2) = .fin (25 / 2) := by
    have := wholeRates_quotient
    have h : divideByLength (.fin 25) 2 = some (toDouble (25 / 2)) := by
      show some (toDouble (25 / ((2 : ℕ) : ℚ))) = some (toDouble (25 / 2))
      norm_num
    rw [h] at this
    exact Option.some.inj this
  have h := avgAcceptanceRate_spec.2.2.1 wholeRates [10, 15] (by simp) (by decide)
    (by
      intro r hr
      simp only [List.mem_cons, List.mem_singleton, List.not_mem_nil, or_false] at hr
      rcases hr with rfl | rfl
      · exact h10
      · exact h15)
    (by
      intro k hk1 hk2
      simp only [List.length_cons, List.length_nil] at hk2
      interval_cases k
      · simpa using h10
      · have : ([10, 15] : List ℚ).take 2 = [10, 15] := rfl
        rw [this]
        norm_num
        exact h25)
    (by norm_num; exact hq)
  rw [h]
  norm_num

/-- C12, counterexample: for the rates 1.4, 2.8, 3.3 the code gives 2 (the sum of the
doubles is 7.499999999999999) while the mean 2.5 rounds to 3; for the rates
2.4999999999999996 and 2.5 the code gives 3 (the sum rounds to 5) while the mean, of the
rates as written and of the doubles they denote, rounds to 2. -/
theorem avgAcceptanceRate_not_rounded_mean :
    (avgAcceptanceRate fractionalRates = some (.fin 2)
      ∧ ⌊((1.4 + 2.8 + 3.3 : ℚ)) / 3 + 1 / 2⌋ = 3)
    ∧ (avgAcceptanceRate nearHalfRates = some (.fin 3)
      ∧ ⌊((2.4999999999999996 + 2.5 : ℚ)) / 2 + 1 / 2⌋ = 2
      ∧ ⌊((5629499534213119 / 2251799813685248 + 5 / 2 : ℚ)) / 2 + 1 / 2⌋ = 2) := by
  refine ⟨⟨?_, ?_⟩, ⟨?_, ?_, ?_⟩⟩
  · have h := avgAcceptanceRate_of_doubles fractionalRates
      [numberOf (.num 1.4), numberOf (.num 2.8), numberOf (.num 3.3)]
      (.fin (8444249301319679 / 1125899906842624))
      (.fin (5629499534213119 / 2251799813685248)) rfl (by simp)
      (by
        show jsAdd (jsAdd (jsAdd (.fin 0) (numberOf (.num 1.4))) (numberOf (.num 2.8)))
          (numberOf (.num 3.3)) = _
        rw [fractionalRates_rate1, fractionalRates_rate2, fractionalRates_rate3, fractionalRates_sum1, fractionalRates_sum2,
          fractionalRates_sum3])
      fractionalRates_quotient
    rw [h]
    show some (Double.fin _) = _
    norm_num
  · rw [Int.floor_eq_iff]
    norm_num
  · have h := avgAcceptanceRate_of_doubles nearHalfRates
      [numberOf (.num 2.4999999999999996), numberOf (.num 2.5)]
      (.fin 5) (.fin (5 / 2)) rfl (by simp)
      (by
        show jsAdd (jsAdd (.fin 0) (numberOf (.num 2.4999999999999996)))
          (numberOf (.num 2.5)) = _
        rw [nearHalfRates_rate1, nearHalfRates_rate2, nearHalfRates_sum1, nearHalfRates_sum2])
      nearHalfRates_quotient
    rw [h]
    show some (Double.fin _) = _
    norm_num
  · rw [Int.floor_eq_iff]
    norm_num
  · rw [Int.floor_eq_iff]
    norm_num

end App

namespace App

open TileMap

/-! ### Marker visibility and the table filter -/

theorem mem_filteredColleges_filter (colleges : List College) (search : Option (College → Bool))
    (vizMode : String) (filters : Filters) (key : College → JSValue) (asc : Bool)
    (c : College)
    (h : c ∈ filteredColleges colleges search vizMode filters key asc) :
    c ∈ colleges ∧ filters (getCategoryKey c vizMode) ≠ some false := by
  unfold filteredColleges at h
  simp only [List.mem_mergeSort, List.mem_filter, decide_eq_true_eq] at h
  refine ⟨?_, h.2⟩
  cases search with
  | none => exact h.1
  | some p => exact (List.mem_filter.mp h.1).1

end App

namespace TileMap

theorem cos_pos_of_lat (lat : ℝ) (h1 : -90 < lat) (h2 : lat < 90) :
    0 < Real.cos (lat * Real.pi / 180) := by
  have hpos := Real.pi_pos
  apply Real.cos_pos_of_mem_Ioo
  constructor
  · have : (-90) * Real.pi < lat * Real.pi := mul_lt_mul_of_pos_right h1 hpos
    linarith
  · have : lat * Real.pi < 90 * Real.pi := mul_lt_mul_of_pos_right h2 hpos
    linarith

theorem log_arg_eq (φ : ℝ) (hc : Real.cos φ ≠ 0) :
    Real.tan φ + 1 / Real.cos φ = (1 + Real.sin φ) / Real.cos φ := by
  rw [Real.tan_eq_sin_div_cos]; field_simp; ring

theorem one_add_sin_pos (φ : ℝ) (hc : Real.cos φ ≠ 0) : 0 < 1 + Real.sin φ := by
  have h := Real.sin_sq_add_cos_sq φ
  have hc2 : 0 < Real.cos φ ^ 2 := by positivity
  have : Real.sin φ ^ 2 < 1 := by linarith
  nlinarith [Real.sin_le_one φ]

/-- Between the poles the projection of the marker pipeline is the real projection. -/
theorem latLngToPxJS_of_lat (lat lng zoom : ℝ) (h1 : -90 < lat) (h2 : lat < 90) :
    latLngToPxJS lat lng zoom
      = some { x := (latLngToPx lat lng zoom).x, y := .fin (latLngToPx lat lng zoom).y } := by
  have hc := cos_pos_of_lat lat h1 h2
  have harg : 0 < Real.tan (lat * Real.pi / 180) + 1 / Real.cos (lat * Real.pi / 180) := by
    rw [log_arg_eq _ hc.ne']
    exact div_pos (one_add_sin_pos _ hc.ne') hc
  unfold latLngToPxJS latLngToPx
  simp only [if_neg hc.ne', if_pos harg]

/-- Where the cosine of the latitude is negative, beyond a pole, the ordinate is NaN. -/
theorem latLngToPxJS_of_cos_neg (lat lng zoom : ℝ)
    (hc : Real.cos (lat * Real.pi / 180) < 0) :
    latLngToPxJS lat lng zoom
      = some { x := ((lng + 180) / 360) * (2 : ℝ) ^ zoom * TILE_SIZE, y := .nan } := by
  have harg : ¬ 0 < Real.tan (lat * Real.pi / 180) + 1 / Real.cos (lat * Real.pi / 180) := by
    rw [log_arg_eq _ hc.ne, not_lt]
    exact (div_neg_of_pos_of_neg (one_add_sin_pos _ hc.ne) hc).le
  unfold latLngToPxJS
  simp only [if_neg hc.ne, if_neg harg]

/-- Between the poles, for the entity and for the center of the viewport, the locals
`left` and `top` are the real offsets from the top-left world pixel of the viewport. -/
theorem markerLeftTop_of_lat (c : College) (viewport : Viewport) (width height : ℝ)
    (hl1 : -90 < c.lat.toReal) (hl2 : c.lat.toReal < 90)
    (hv1 : -90 < viewport.lat) (hv2 : viewport.lat < 90) :
    markerLeftTop c viewport width height
      = some
          { x := (latLngToPx c.lat.toReal c.lng.toReal viewport.zoom).x
              - (viewportTlPx viewport width height).x
            y := .fin ((latLngToPx c.lat.toReal c.lng.toReal viewport.zoom).y
              - (viewportTlPx viewport width height).y) } := by
  unfold markerLeftTop
  rw [latLngToPxJS_of_lat _ _ _ hl1 hl2, latLngToPxJS_of_lat _ _ _ hv1 hv2]
  simp only [viewportTlPx, Ordinate.sub, Ordinate.subReal]

/-- Once the projection has a result, a marker that passes the coordinate guard is an
element exactly when the filter set does not hide its key and no comparison of the cull
holds. -/
theorem marker_element_iff (c : College) (mode : String) (filters : Filters)
    (viewport : Viewport) (width height : ℝ) (p : PxJS)
    (hc : skipsCoordinate c = false) (hp : markerLeftTop c viewport width height = some p) :
    (∃ m, marker c mode filters viewport width height = some (.element m))
      ↔ filters (getCategoryKey c mode) ≠ some false
        ∧ ¬ (p.x < -50 ∨ p.x > width + 50 ∨ p.y.lt (-50) ∨ p.y.gt (height + 50)) := by
  have h1 : ¬ skipsCoordinate c = true := by simp [hc]
  unfold marker
  rw [if_neg h1]
  dsimp only
  by_cases h2 : filters (getCategoryKey c mode) = some false
  · rw [if_pos h2]
    simp [h2]
  · rw [if_neg h2, hp]
    dsimp only
    by_cases h3 : p.x < -50 ∨ p.x > width + 50 ∨ p.y.lt (-50) ∨ p.y.gt (height + 50)
    · rw [if_pos h3]
      simp [h3]
    · rw [if_neg h3]
      simp [h2, h3]

/-- Once the projection has a result the callback returns `null` or an element. -/
theorem marker_null_or_element (c : College) (mode : String) (filters : Filters)
    (viewport : Viewport) (width height : ℝ) (p : PxJS)
    (hp : markerLeftTop c viewport width height = some p) :
    marker c mode filters viewport width height = some .null
      ∨ ∃ m, marker c mode filters viewport width height = some (.element m) := by
  unfold marker
  rw [hp]
  dsimp only
  split_ifs
  · exact Or.inl rfl
  · exact Or.inl rfl
  · exact Or.inl rfl
  · exact Or.inr ⟨_, rfl⟩

theorem marker_null_of_hidden (c : College) (mode : String) (filters : Filters)
    (viewport : Viewport) (width height : ℝ)
    (hf : filters (getCategoryKey c mode) = some false) :
    marker c mode filters viewport width height = some .null := by
  unfold marker
  split
  · rfl
  · dsimp only
    rw [if_pos hf]

theorem lat_of_arctan_range (t : ℝ) :
    -90 < Real.arctan t * 180 / Real.pi ∧ Real.arctan t * 180 / Real.pi < 90 := by
  have hpos := Real.pi_pos
  have h1 := Real.neg_pi_div_two_lt_arctan t
  have h2 := Real.arctan_lt_pi_div_two t
  constructor
  · rw [lt_div_iff₀ hpos]; linarith
  · rw [div_lt_iff₀ hpos]; linarith

theorem step_lat_range (s : MapState) (ev : MapEvent)
    (h : -90 < s.viewport.lat ∧ s.viewport.lat < 90) :
    -90 < (step s ev).viewport.lat ∧ (step s ev).viewport.lat < 90 := by
  cases ev with
  | zoomIn => exact h
  | zoomOut => exact h
  | wheel rect e => exact lat_of_arctan_range _
  | startDrag x y => exact h
  | drag x y =>
    show -90 < (onDrag s x y).viewport.lat ∧ (onDrag s x y).viewport.lat < 90
    unfold onDrag
    split
    · exact h
    · exact lat_of_arctan_range _
  | endDrag => exact h

/-- The latitude of the center of every viewport reached from the initial state lies
strictly between -90 and 90. -/
theorem run_lat_range (events : List MapEvent) :
    ∀ s : MapState, (-90 < s.viewport.lat ∧ s.viewport.lat < 90) →
      -90 < (run s events).viewport.lat ∧ (run s events).viewport.lat < 90 := by
  induction events with
  | nil => intro s h; exact h
  | cons ev rest ih => intro s h; exact ih (step s ev) (step_lat_range s ev h)

/-- C16, as amended: over the reals, with the latitude of the entity and of the center of
the viewport strictly between -90 and 90, an entity that passes the coordinate check is
rendered exactly when the filter set does not map its category key to false (an absent
key counts as visible) and its screen position, the world pixel of its coordinate at the
zoom of the viewport minus the top-left world pixel of the viewport, lies within 50
pixels of the surface; otherwise the callback returns null. The table filter uses the
same key and the same test, so an entity that the filter hides on the map is not a row of
the table. The marker pass returns the filter set unchanged. -/
theorem marker_visibility (c : College) (mode : String) (filters : Filters)
    (viewport : Viewport) (width height : ℝ) (hc : skipsCoordinate c = false)
    (hl1 : -90 < c.lat.toReal) (hl2 : c.lat.toReal < 90)
    (hv1 : -90 < viewport.lat) (hv2 : viewport.lat < 90) :
    ((∃ m, marker c mode filters viewport width height = some (.element m))
      ↔ filters (getCategoryKey c mode) ≠ some false
        ∧ -50 ≤ (latLngToPx c.lat.toReal c.lng.toReal viewport.zoom).x
              - (viewportTlPx viewport width height).x
        ∧ (latLngToPx c.lat.toReal c.lng.toReal viewport.zoom).x
              - (viewportTlPx viewport width height).x ≤ width + 50
        ∧ -50 ≤ (latLngToPx c.lat.toReal c.lng.toReal viewport.zoom).y
              - (viewportTlPx viewport width height).y
        ∧ (latLngToPx c.lat.toReal c.lng.toReal viewport.zoom).y
              - (viewportTlPx viewport width height).y ≤ height + 50)
    ∧ (marker c mode filters viewport width height = some .null
        ∨ ∃ m, marker c mode filters viewport width height = some (.element m))
    ∧ (∀ (colleges : List College) (search : Option (College → Bool))
        (key : College → JSValue) (asc : Bool),
        filters (getCategoryKey c mode) = some false →
          marker c mode filters viewport width height = some .null
            ∧ c ∉ App.filteredColleges colleges search mode filters key asc)
    ∧ (∀ data : List College,
        (markersPass data mode filters viewport width height).filters = filters) := by
  have hp := markerLeftTop_of_lat c viewport width height hl1 hl2 hv1 hv2
  refine ⟨?_, marker_null_or_element c mode filters viewport width height _ hp, ?_,
    fun _ => rfl⟩
  · rw [marker_element_iff c mode filters viewport width height _ hc hp]
    simp only [Ordinate.lt, Ordinate.gt, not_or, not_lt, gt_iff_lt]
  · intro colleges search key asc hf
    refine ⟨marker_null_of_hidden c mode filters viewport width height hf, ?_⟩
    intro hmem
    exact (App.mem_filteredColleges_filter colleges search mode filters key asc c hmem).2 hf

theorem toReal_num (q : ℚ) : (JSValue.num q).toReal = (q : ℝ) := rfl

/-- Witness of C16 as amended: under the initial filter set, on an 800 by 600 surface
centered on it, the scenario entity passes the coordinate check and is rendered. -/
theorem marker_visibility_witness :
    skipsCoordinate entityA = false
    ∧ ∃ m, marker entityA "attending" App.initialFilters viewportAtEntityA 800 600
        = some (.element m) := by
  have hc : skipsCoordinate entityA = false := by decide
  have hlat : entityA.lat.toReal = 40 := by
    simp [entityA, JSValue.toReal, JSValue.toNumber]
  have hlng : entityA.lng.toReal = -88 := by
    simp [entityA, JSValue.toReal, JSValue.toNumber]
  refine ⟨hc, ?_⟩
  rw [(marker_visibility entityA "attending" App.initialFilters viewportAtEntityA 800 600
    hc (by rw [hlat]; norm_num) (by rw [hlat]; norm_num)
    (by norm_num [viewportAtEntityA]) (by norm_num [viewportAtEntityA])).1]
  refine ⟨by decide, ?_⟩
  rw [hlat, hlng]
  simp only [viewportTlPx, viewportAtEntityA, sub_sub_cancel]
  norm_num

/-- C16, counterexample: the entity at latitude 180 and longitude 10 passes the coordinate
check and is not hidden by the initial filter set; on an 800 by 600 surface centered on
the equator at longitude 10 its `left` is 400 and its `top` is NaN, which lies between no
bounds, and it is rendered. -/
theorem marker_rendered_with_nan_top :
    skipsCoordinate beyondPoleCollege = false
    ∧ App.initialFilters (getCategoryKey beyondPoleCollege "attending") ≠ some false
    ∧ markerLeftTop beyondPoleCollege meridianViewport 800 600 = some { x := 400, y := .nan }
    ∧ ¬ Ordinate.between (-50) (600 + 50) Ordinate.nan
    ∧ ∃ m, marker beyondPoleCollege "attending" App.initialFilters meridianViewport 800 600
        = some (.element m) := by
  have hc : skipsCoordinate beyondPoleCollege = false := by decide
  have hlat : beyondPoleCollege.lat.toReal = 180 := by
    simp [beyondPoleCollege, JSValue.toReal, JSValue.toNumber]
  have hlng : beyondPoleCollege.lng.toReal = 10 := by
    simp [beyondPoleCollege, JSValue.toReal, JSValue.toNumber]
  have hπ : (180 : ℝ) * Real.pi / 180 = Real.pi := by ring
  have hcos : Real.cos ((180 : ℝ) * Real.pi / 180) < 0 := by
    rw [hπ, Real.cos_pi]; norm_num
  have hp : markerLeftTop beyondPoleCollege meridianViewport 800 600
      = some { x := 400, y := .nan } := by
    unfold markerLeftTop
    rw [hlat, hlng, latLngToPxJS_of_cos_neg _ _ _ hcos,
      latLngToPxJS_of_lat _ _ _ (by norm_num [meridianViewport])
        (by norm_num [meridianViewport])]
    simp only [Ordinate.sub, latLngToPx, meridianViewport]
    congr 1
    norm_num
  refine ⟨hc, by decide, hp, fun h => h, ?_⟩
  rw [marker_element_iff beyondPoleCollege "attending" App.initialFilters meridianViewport
    800 600 _ hc hp]
  refine ⟨by decide, ?_⟩
  simp only [Ordinate.lt, Ordinate.gt, or_false, not_or, not_lt]
  constructor <;> norm_num

/-! ### Keys shared between the two modes -/

theorem getCategoryKey_attending_mem (c : College) :
    getCategoryKey c "attending" ∈ ({"HIGH", "MED", "LOW", "VERY_LOW", "MIN"} : Set String) := by
  unfold getCategoryKey
  generalize c.attending.ge 50 = b1
  generalize c.attending.ge 20 = b2
  generalize c.attending.ge 10 = b3
  generalize c.attending.ge 5 = b4
  cases b1 <;> cases b2 <;> cases b3 <;> cases b4 <;> simp

theorem getCategoryKey_acceptance_mem (c : College) (mode : String) (hm : mode ≠ "attending") :
    getCategoryKey c mode ∈
      ({"UNKNOWN", "EXTREME", "VERY_LOW", "LOW", "SELECTIVE", "MODERATE", "OPEN"} :
        Set String) := by
  unfold getCategoryKey
  rw [if_neg hm]
  generalize c.rate.truthy = b0
  generalize c.rate.lt 5 = b1
  generalize c.rate.lt 10 = b2
  generalize c.rate.lt 20 = b3
  generalize c.rate.lt 50 = b4
  generalize c.rate.lt 80 = b5
  cases b0 <;> cases b1 <;> cases b2 <;> cases b3 <;> cases b4 <;> cases b5 <;> simp

/-- C19. Filter keys are shared between the two modes: the keys that `getCategoryKey`
returns in attendance mode are exactly HIGH, MED, LOW, VERY_LOW, MIN, in acceptance mode
exactly UNKNOWN, EXTREME, VERY_LOW, LOW, SELECTIVE, MODERATE, OPEN, and the two sets meet
in exactly LOW and VERY_LOW. So a filter set that maps LOW to false hides, on the map and
in the table, every entity with attendance in [10, 20) in attendance mode and every
entity with rate in [10, 20) in acceptance mode. The keys VERY_LOW_ACC and LOW_ACC of the
initial filter set are never returned by `getCategoryKey`. -/
theorem category_keys_shared :
    Set.range (fun c : College => getCategoryKey c "attending")
        = {"HIGH", "MED", "LOW", "VERY_LOW", "MIN"}
    ∧ Set.range (fun c : College => getCategoryKey c "acceptance")
        = {"UNKNOWN", "EXTREME", "VERY_LOW", "LOW", "SELECTIVE", "MODERATE", "OPEN"}
    ∧ (({"HIGH", "MED", "LOW", "VERY_LOW", "MIN"} : Set String)
          ∩ {"UNKNOWN", "EXTREME", "VERY_LOW", "LOW", "SELECTIVE", "MODERATE", "OPEN"}
        = {"LOW", "VERY_LOW"})
    ∧ (∀ filters : Filters, filters "LOW" = some false →
        (∀ (c : College) (a : ℚ), c.attending = .num a → 10 ≤ a → a < 20 →
          (∀ (viewport : Viewport) (width height : ℝ),
            marker c "attending" filters viewport width height = some .null)
          ∧ (∀ (colleges : List College) (search : Option (College → Bool))
              (key : College → JSValue) (asc : Bool),
              c ∉ App.filteredColleges colleges search "attending" filters key asc))
        ∧ (∀ (c : College) (r : ℚ), c.rate = .num r → 10 ≤ r → r < 20 →
          (∀ (viewport : Viewport) (width height : ℝ),
            marker c "acceptance" filters viewport width height = some .null)
          ∧ (∀ (colleges : List College) (search : Option (College → Bool))
              (key : College → JSValue) (asc : Bool),
              c ∉ App.filteredColleges colleges search "acceptance" filters key asc)))
    ∧ (∀ (c : College) (mode : String),
        getCategoryKey c mode ≠ "VERY_LOW_ACC" ∧ getCategoryKey c mode ≠ "LOW_ACC")
    ∧ App.initialFilters "VERY_LOW_ACC" = some true
    ∧ App.initialFilters "LOW_ACC" = some true := by
  have hne : ("acceptance" : String) ≠ "attending" := by decide
  refine ⟨?_, ?_, ?_, ?_, ?_, by decide, by decide⟩
  · ext k
    constructor
    · rintro ⟨c, rfl⟩
      exact getCategoryKey_attending_mem c
    · intro hk
      simp only [Set.mem_insert_iff, Set.mem_singleton_iff] at hk
      rcases hk with rfl | rfl | rfl | rfl | rfl
      · exact ⟨attendingOnly 50, by decide⟩
      · exact ⟨attendingOnly 20, by decide⟩
      · exact ⟨attendingOnly 10, by decide⟩
      · exact ⟨attendingOnly 5, by decide⟩
      · exact ⟨attendingOnly 1, by decide⟩
  · ext k
    constructor
    · rintro ⟨c, rfl⟩
      exact getCategoryKey_acceptance_mem c "acceptance" hne
    · intro hk
      simp only [Set.mem_insert_iff, Set.mem_singleton_iff] at hk
      rcases hk with rfl | rfl | rfl | rfl | rfl | rfl | rfl
      · exact ⟨entityA, by decide⟩
      · exact ⟨rateOnly 3, by decide⟩
      · exact ⟨rateOnly 7, by decide⟩
      · exact ⟨rateOnly 15, by decide⟩
      · exact ⟨rateOnly 30, by decide⟩
      · exact ⟨rateOnly 60, by decide⟩
      · exact ⟨rateOnly 90, by decide⟩
  · ext k
    simp only [Set.mem_inter_iff, Set.mem_insert_iff, Set.mem_singleton_iff]
    constructor
    · rintro ⟨h1, h2⟩
      rcases h1 with rfl | rfl | rfl | rfl | rfl
      · simp at h2
      · simp at h2
      · exact Or.inl rfl
      · exact Or.inr rfl
      · simp at h2
    · rintro (rfl | rfl) <;> simp
  · intro filters hf
    constructor
    · intro c a ha h10 h20
      have hkey : getCategoryKey c "attending" = "LOW" := by
        simp only [getCategoryKey, ha, JSValue.ge, JSValue.toNumber, if_true,
          decide_eq_true_eq]
        rw [if_neg (not_le.mpr (by linarith)), if_neg (not_le.mpr h20), if_pos h10]
      have hhide : filters (getCategoryKey c "attending") = some false := by rw [hkey, hf]
      refine ⟨fun viewport width height => ?_, fun colleges search key asc hmem => ?_⟩
      · exact marker_null_of_hidden c _ filters viewport width height hhide
      · exact (App.mem_filteredColleges_filter colleges search _ filters key asc c hmem).2 hhide
    · intro c r hr h10 h20
      have h0 : r ≠ 0 := by
        intro h; rw [h] at h10; norm_num at h10
      have hkey : getCategoryKey c "acceptance" = "LOW" := by
        rw [getCategoryKey_acceptance_of_ne_zero c r hr h0,
          if_neg (by linarith), if_neg (by linarith), if_pos h20]
      have hhide : filters (getCategoryKey c "acceptance") = some false := by rw [hkey, hf]
      refine ⟨fun viewport width height => ?_, fun colleges search key asc hmem => ?_⟩
      · exact marker_null_of_hidden c _ filters viewport width height hhide
      · exact (App.mem_filteredColleges_filter colleges search _ filters key asc c hmem).2 hhide
  · intro c mode
    by_cases hm : mode = "attending"
    · subst hm
      have h := getCategoryKey_attending_mem c
      simp only [Set.mem_insert_iff, Set.mem_singleton_iff] at h
      constructor <;> intro hk <;> rw [hk] at h <;> simp at h
    · have h := getCategoryKey_acceptance_mem c mode hm
      simp only [Set.mem_insert_iff, Set.mem_singleton_iff] at h
      constructor <;> intro hk <;> rw [hk] at h <;> simp at h

/-- Witness of C19: the filter set that hides LOW hides the entity with attendance 15 in
attendance mode and the entity with rate 15 in acceptance mode, both geocoded. -/
theorem category_keys_shared_witness :
    skipsCoordinate lowAttendanceCollege = false
    ∧ skipsCoordinate lowRateCollege = false
    ∧ marker lowAttendanceCollege "attending" hideLow viewportAtEntityA 800 600 = some .null
    ∧ marker lowRateCollege "acceptance" hideLow viewportAtEntityA 800 600 = some .null :=
  ⟨by decide, by decide,
   ((category_keys_shared.2.2.2.1 hideLow rfl).1 lowAttendanceCollege 15 rfl
      (by norm_num) (by norm_num)).1 viewportAtEntityA 800 600,
   ((category_keys_shared.2.2.2.1 hideLow rfl).2 lowRateCollege 15 rfl
      (by norm_num) (by norm_num)).1 viewportAtEntityA 800 600⟩

end TileMap

namespace TileMap

/-! ### Tile grid -/

theorem TILE_SIZE_pos : 0 < TILE_SIZE := by
  unfold TILE_SIZE; norm_num

theorem mem_intRange (a b z : ℤ) : z ∈ intRange a b ↔ a ≤ z ∧ z < b := by
  unfold intRange
  simp only [List.mem_map, List.mem_range]
  constructor
  · rintro ⟨i, hi, rfl⟩
    omega
  · rintro ⟨h1, h2⟩
    refine ⟨(z - a).toNat, ?_, ?_⟩ <;> omega

/-- The images pushed by the tile loop are the bodies of the loop at the columns from
`startTileX` up to `endTileX` and the rows from `startTileY` up to `endTileY`. -/
theorem mem_tiles (viewport : Viewport) (width height : ℝ) (t : Tile) :
    t ∈ tiles viewport width height ↔
      ∃ x y : ℤ, (startTileX viewport width height ≤ x ∧ x < endTileX viewport width height)
        ∧ (startTileY viewport width height ≤ y ∧ y < endTileY viewport width height)
        ∧ t = tileAt viewport width height x y := by
  unfold tiles
  simp only [List.mem_flatMap, List.mem_map, mem_intRange]
  constructor
  · rintro ⟨x, hx, y, hy, rfl⟩
    exact ⟨x, y, hx, hy, rfl⟩
  · rintro ⟨x, y, hx, hy, rfl⟩
    exact ⟨x, hx, y, hy, rfl⟩

theorem tile_index_emitted_iff (viewport : Viewport) (width height : ℝ) (x y : ℤ) :
    (∃ t ∈ tiles viewport width height, t.x = x ∧ t.y = y) ↔
      (startTileX viewport width height ≤ x ∧ x < endTileX viewport width height)
        ∧ (startTileY viewport width height ≤ y ∧ y < endTileY viewport width height) := by
  constructor
  · rintro ⟨t, ht, rfl, rfl⟩
    obtain ⟨x, y, hx, hy, rfl⟩ := (mem_tiles viewport width height t).mp ht
    exact ⟨hx, hy⟩
  · rintro ⟨hx, hy⟩
    exact ⟨tileAt viewport width height x y,
      (mem_tiles viewport width height _).mpr ⟨x, y, hx, hy, rfl⟩, rfl, rfl⟩

theorem originViewport_tileZoom : tileZoom originViewport = 2 := by
  unfold tileZoom originViewport
  simp

theorem originViewport_scale : scale originViewport = 1 := by
  unfold scale
  rw [originViewport_tileZoom]
  simp [originViewport]

theorem originViewport_viewportTlPxTile (width height : ℝ) :
    viewportTlPxTile originViewport width height
      = { x := 512 - width / 2, y := 512 - height / 2 } := by
  unfold viewportTlPxTile latLngToPx
  rw [originViewport_tileZoom, originViewport_scale]
  have h4 : (2 : ℝ) ^ (((2 : ℤ) : ℝ)) = 4 := by
    have : (((2 : ℤ) : ℝ)) = ((2 : ℕ) : ℝ) := by norm_num
    rw [this, Real.rpow_natCast]; norm_num
  simp only [h4, originViewport, TILE_SIZE]
  norm_num

/-- C11, as amended: in every viewport with zoom between 2 and 12, the rows of the emitted
tiles run from the floor of `top / 256` up to the ceiling of `bottom / 256`, where `top`
and `bottom` bound the viewport rectangle at the tile zoom; the row is neither wrapped nor
clamped, so the rows lie in `[0, 2^tileZoom)` whenever that rectangle lies within the
vertical extent of the world, `0 <= top` and `bottom <= 256 * 2^tileZoom`. -/
theorem tiles_rows (viewport : Viewport) (width height : ℝ)
    (_hz1 : 2 ≤ viewport.zoom) (_hz2 : viewport.zoom ≤ 12) :
    (∀ t ∈ tiles viewport width height,
      startTileY viewport width height ≤ t.y ∧ t.y < endTileY viewport width height)
    ∧ (0 ≤ (viewportTlPxTile viewport width height).y →
        (viewportTlPxTile viewport width height).y + height / scale viewport
          ≤ TILE_SIZE * (2 : ℝ) ^ (tileZoom viewport).toNat →
        ∀ t ∈ tiles viewport width height,
          0 ≤ t.y ∧ t.y < 2 ^ (tileZoom viewport).toNat) := by
  have hrows : ∀ t ∈ tiles viewport width height,
      startTileY viewport width height ≤ t.y ∧ t.y < endTileY viewport width height := by
    intro t ht
    obtain ⟨x, y, _, hy, rfl⟩ := (mem_tiles viewport width height t).mp ht
    exact hy
  refine ⟨hrows, ?_⟩
  intro htop hbot t ht
  obtain ⟨h1, h2⟩ := hrows t ht
  have hs : 0 ≤ startTileY viewport width height := by
    unfold startTileY
    exact Int.floor_nonneg.mpr (div_nonneg htop TILE_SIZE_pos.le)
  have he : endTileY viewport width height ≤ 2 ^ (tileZoom viewport).toNat := by
    unfold endTileY
    rw [Int.ceil_le, div_le_iff₀ TILE_SIZE_pos]
    push_cast
    linarith
  omega

/-- Witness of C11 as amended: at the origin and zoom 2 on an 800 by 600 surface the rows
of the emitted tiles lie in `[0, 4)`. -/
theorem tiles_rows_witness :
    (2 : ℝ) ≤ originViewport.zoom ∧ originViewport.zoom ≤ 12
    ∧ ∀ t ∈ tiles originViewport 800 600, 0 ≤ t.y ∧ t.y < 4 := by
  have hz1 : (2 : ℝ) ≤ originViewport.zoom := by norm_num [originViewport]
  have hz2 : originViewport.zoom ≤ 12 := by norm_num [originViewport]
  have h := (tiles_rows originViewport 800 600 hz1 hz2).2
  rw [originViewport_viewportTlPxTile, originViewport_scale, originViewport_tileZoom] at h
  have h' := h (by norm_num) (by norm_num [TILE_SIZE, Int.toNat])
  refine ⟨hz1, hz2, fun t ht => ?_⟩
  have := h' t ht
  simpa using this

/-- C11, counterexample: at the origin and zoom 2 on an 800 by 1200 surface the tile loop
emits a tile in row -1, outside `[0, 2^tileZoom)`. -/
theorem tiles_row_out_of_range :
    (2 : ℝ) ≤ originViewport.zoom ∧ originViewport.zoom ≤ 12
    ∧ ¬ (∀ t ∈ tiles originViewport 800 1200,
          0 ≤ t.y ∧ t.y < 2 ^ (tileZoom originViewport).toNat) := by
  refine ⟨by norm_num [originViewport], by norm_num [originViewport], ?_⟩
  intro hall
  have hmem : tileAt originViewport 800 1200 0 (-1) ∈ tiles originViewport 800 1200 := by
    rw [mem_tiles]
    refine ⟨0, -1, ⟨?_, ?_⟩, ⟨?_, ?_⟩, rfl⟩
    · unfold startTileX
      rw [originViewport_viewportTlPxTile, Int.floor_le_iff]
      norm_num [TILE_SIZE]
    · unfold endTileX
      rw [originViewport_viewportTlPxTile, originViewport_scale, Int.lt_ceil]
      norm_num [TILE_SIZE]
    · unfold startTileY
      rw [originViewport_viewportTlPxTile, Int.floor_le_iff]
      norm_num [TILE_SIZE]
    · unfold endTileY
      rw [originViewport_viewportTlPxTile, originViewport_scale, Int.lt_ceil]
      norm_num [TILE_SIZE]
  have h := (hall _ hmem).1
  simp [tileAt] at h

/-- On the default 800 by 600 surface the same happens once the map is panned north at
zoom 2: with the center at the coordinate of the world pixel (512, 100), reached by
dragging, the tile loop emits a tile in row -1. -/
theorem tiles_row_out_of_range_after_pan :
    ∃ t ∈ tiles northViewport 800 600, t.y = -1 := by
  have htz : tileZoom northViewport = 2 := by
    unfold tileZoom northViewport
    simp
  have hsc : scale northViewport = 1 := by
    unfold scale
    rw [htz]
    simp [northViewport]
  have htl : viewportTlPxTile northViewport 800 600 = { x := 512 - 400, y := 100 - 300 } := by
    unfold viewportTlPxTile
    rw [htz, hsc]
    have h2 : (((2 : ℤ) : ℝ)) = 2 := by norm_num
    simp only [h2, northViewport, latLngToPx_pxToLatLng]
    norm_num
  refine ⟨tileAt northViewport 800 600 0 (-1), ?_, rfl⟩
  rw [mem_tiles]
  refine ⟨0, -1, ⟨?_, ?_⟩, ⟨?_, ?_⟩, rfl⟩
  · unfold startTileX
    rw [htl, Int.floor_le_iff]
    norm_num [TILE_SIZE]
  · unfold endTileX
    rw [htl, hsc, Int.lt_ceil]
    norm_num [TILE_SIZE]
  · unfold startTileY
    rw [htl, Int.floor_le_iff]
    norm_num [TILE_SIZE]
  · unfold endTileY
    rw [htl, hsc, Int.lt_ceil]
    norm_num [TILE_SIZE]

end TileMap

namespace TileMap

theorem scale_bounds (viewport : Viewport) : 1 ≤ scale viewport ∧ scale viewport < 2 := by
  unfold scale tileZoom
  have h0 : 0 ≤ viewport.zoom - (⌊viewport.zoom⌋ : ℝ) := sub_nonneg.mpr (Int.floor_le _)
  have h1 : viewport.zoom - (⌊viewport.zoom⌋ : ℝ) < 1 := by
    have := Int.lt_floor_add_one viewport.zoom
    linarith
  constructor
  · exact Real.one_le_rpow (by norm_num) h0
  · have h := Real.rpow_lt_rpow_of_exponent_lt (by norm_num : (1 : ℝ) < 2) h1
    rwa [Real.rpow_one] at h

/-- A column of the loop is one whose open cell meets the open horizontal extent of the
viewport, and likewise for rows: the one-dimensional form, for an extent of positive
length `W` starting at `c`. -/
theorem index_in_loop_iff (c W : ℝ) (hW : 0 < W) (x : ℤ) :
    (⌊c / TILE_SIZE⌋ ≤ x ∧ x < ⌈(c + W) / TILE_SIZE⌉)
      ↔ (Set.Ioo ((x : ℝ) * TILE_SIZE) (((x : ℝ) + 1) * TILE_SIZE) ∩ Set.Ioo c (c + W)).Nonempty := by
  have hT := TILE_SIZE_pos
  rw [Set.Ioo_inter_Ioo, Set.nonempty_Ioo, Int.floor_le_iff, Int.lt_ceil, div_lt_iff₀ hT,
    lt_div_iff₀ hT, max_lt_iff, lt_min_iff, lt_min_iff]
  constructor
  · rintro ⟨h1, h2⟩
    exact ⟨⟨by nlinarith, h2⟩, ⟨h1, by linarith⟩⟩
  · rintro ⟨⟨_, h2⟩, ⟨h1, _⟩⟩
    exact ⟨h1, h2⟩

/-- Every point of an extent of the screen lies in the closed screen interval of a tile
index of the loop: the one-dimensional form. -/
theorem cover_index (c W s p : ℝ) (hs : 0 < s) (hW : 0 < W) (hp0 : 0 ≤ p) (hp1 : p ≤ W * s) :
    ∃ x : ℤ, (⌊c / TILE_SIZE⌋ ≤ x ∧ x < ⌈(c + W) / TILE_SIZE⌉)
      ∧ ((x : ℝ) * TILE_SIZE - c) * s ≤ p
      ∧ p ≤ ((x : ℝ) * TILE_SIZE - c) * s + TILE_SIZE * s := by
  have hT := TILE_SIZE_pos
  have hu0 : c ≤ c + p / s := by
    have : 0 ≤ p / s := div_nonneg hp0 hs.le
    linarith
  have hu1 : c + p / s ≤ c + W := by
    have : p / s ≤ W := by rw [div_le_iff₀ hs]; exact hp1
    linarith
  have hps : p / s * s = p := div_mul_cancel₀ p hs.ne'
  by_cases hlt : (c + p / s) / TILE_SIZE < ⌈(c + W) / TILE_SIZE⌉
  · refine ⟨⌊(c + p / s) / TILE_SIZE⌋, ⟨?_, ?_⟩, ?_, ?_⟩
    · exact Int.floor_le_floor (div_le_div_of_nonneg_right hu0 hT.le)
    · have h := Int.floor_le ((c + p / s) / TILE_SIZE)
      exact_mod_cast lt_of_le_of_lt h hlt
    · have h := Int.floor_le ((c + p / s) / TILE_SIZE)
      rw [le_div_iff₀ hT] at h
      have h2 : ((⌊(c + p / s) / TILE_SIZE⌋ : ℝ) * TILE_SIZE - c) * s ≤ p / s * s :=
        mul_le_mul_of_nonneg_right (by linarith) hs.le
      rwa [hps] at h2
    · have h := Int.lt_floor_add_one ((c + p / s) / TILE_SIZE)
      rw [div_lt_iff₀ hT] at h
      have h2 : p / s * s ≤ (((⌊(c + p / s) / TILE_SIZE⌋ : ℝ) + 1) * TILE_SIZE - c) * s :=
        mul_le_mul_of_nonneg_right (by linarith) hs.le
      rw [hps] at h2
      linarith
  · push_neg at hlt
    have hce : ((⌈(c + W) / TILE_SIZE⌉ : ℤ) : ℝ) ≤ (c + W) / TILE_SIZE := by
      exact le_trans hlt (div_le_div_of_nonneg_right hu1 hT.le)
    have hce2 := Int.le_ceil ((c + W) / TILE_SIZE)
    have heq : ((⌈(c + W) / TILE_SIZE⌉ : ℤ) : ℝ) = (c + W) / TILE_SIZE := le_antisymm hce hce2
    have hpu : (c + p / s) / TILE_SIZE = (c + W) / TILE_SIZE :=
      le_antisymm (div_le_div_of_nonneg_right hu1 hT.le) (heq ▸ hlt)
    have hpW : c + p / s = c + W := by
      have := congrArg (fun v => v * TILE_SIZE) hpu
      simpa [div_mul_cancel₀ _ hT.ne'] using this
    have hcW : (⌈(c + W) / TILE_SIZE⌉ : ℝ) * TILE_SIZE = c + W := by
      rw [heq, div_mul_cancel₀ _ hT.ne']
    have h3 : (⌈(c + W) / TILE_SIZE⌉ : ℝ) * TILE_SIZE * s = (c + W) * s := by rw [hcW]
    have hTs : 0 < TILE_SIZE * s := mul_pos hT hs
    have hp : p = W * s := by
      have hW2 : p / s = W := by linarith
      rw [← hps, hW2]
    refine ⟨⌈(c + W) / TILE_SIZE⌉ - 1, ⟨?_, by omega⟩, ?_, ?_⟩
    · have h1 : c / TILE_SIZE < (c + W) / TILE_SIZE :=
        div_lt_div_of_pos_right (by linarith) hT
      have h2 : ⌊c / TILE_SIZE⌋ < ⌈(c + W) / TILE_SIZE⌉ := by
        rw [Int.floor_lt]
        exact lt_of_lt_of_le h1 hce2
      omega
    · push_cast
      nlinarith [h3, hTs, hp]
    · push_cast
      nlinarith [h3, hTs, hp]

/-- C15. The tile grid covers the surface: in every viewport with zoom between 2 and 12 on
every surface of positive width and height, the scale lies in `[1, 2)`; the loop emits a
tile with column `x` and row `y` exactly when the open cell of side 256 at `(x, y)` meets
the open viewport rectangle of size `(width / scale, height / scale)` at the tile zoom;
each emitted tile is placed at `((256 x - cornerX) * scale, (256 y - cornerY) * scale)`
with side `256 * scale`; and every point of the surface `[0, width] x [0, height]` lies in
the screen square of an emitted tile. -/
theorem tiles_cover (viewport : Viewport) (width height : ℝ)
    (_hz1 : 2 ≤ viewport.zoom) (_hz2 : viewport.zoom ≤ 12)
    (hw : 0 < width) (hh : 0 < height) :
    (tileZoom viewport = ⌊viewport.zoom⌋
      ∧ scale viewport = (2 : ℝ) ^ (viewport.zoom - (tileZoom viewport : ℝ))
      ∧ 1 ≤ scale viewport ∧ scale viewport < 2)
    ∧ (∀ x y : ℤ, (∃ t ∈ tiles viewport width height, t.x = x ∧ t.y = y) ↔
        (Set.Ioo ((x : ℝ) * TILE_SIZE) (((x : ℝ) + 1) * TILE_SIZE)
            ∩ Set.Ioo (viewportTlPxTile viewport width height).x
                ((viewportTlPxTile viewport width height).x + width / scale viewport)).Nonempty
        ∧ (Set.Ioo ((y : ℝ) * TILE_SIZE) (((y : ℝ) + 1) * TILE_SIZE)
            ∩ Set.Ioo (viewportTlPxTile viewport width height).y
                ((viewportTlPxTile viewport width height).y + height / scale viewport)).Nonempty)
    ∧ (∀ t ∈ tiles viewport width height,
        t.left = ((t.x : ℝ) * TILE_SIZE - (viewportTlPxTile viewport width height).x)
            * scale viewport
        ∧ t.top = ((t.y : ℝ) * TILE_SIZE - (viewportTlPxTile viewport width height).y)
            * scale viewport
        ∧ t.size = TILE_SIZE * scale viewport
        ∧ t.tileZoom = tileZoom viewport)
    ∧ (∀ px py : ℝ, 0 ≤ px → px ≤ width → 0 ≤ py → py ≤ height →
        ∃ t ∈ tiles viewport width height,
          (t.left ≤ px ∧ px ≤ t.left + t.size) ∧ (t.top ≤ py ∧ py ≤ t.top + t.size)) := by
  have hs := scale_pos viewport
  have hW : 0 < width / scale viewport := div_pos hw hs
  have hH : 0 < height / scale viewport := div_pos hh hs
  refine ⟨⟨rfl, rfl, scale_bounds viewport⟩, ?_, ?_, ?_⟩
  · intro x y
    rw [tile_index_emitted_iff]
    unfold startTileX endTileX startTileY endTileY
    rw [index_in_loop_iff _ _ hW x, index_in_loop_iff _ _ hH y]
  · intro t ht
    obtain ⟨x, y, _, _, rfl⟩ := (mem_tiles viewport width height t).mp ht
    exact ⟨rfl, rfl, rfl, rfl⟩
  · intro px py hx0 hx1 hy0 hy1
    obtain ⟨x, hx, hxl, hxr⟩ := cover_index (viewportTlPxTile viewport width height).x
      (width / scale viewport) (scale viewport) px hs hW hx0
      (by rw [div_mul_cancel₀ _ hs.ne']; exact hx1)
    obtain ⟨y, hy, hyl, hyr⟩ := cover_index (viewportTlPxTile viewport width height).y
      (height / scale viewport) (scale viewport) py hs hH hy0
      (by rw [div_mul_cancel₀ _ hs.ne']; exact hy1)
    exact ⟨tileAt viewport width height x y,
      (mem_tiles viewport width height _).mpr ⟨x, y, hx, hy, rfl⟩, ⟨hxl, hxr⟩, ⟨hyl, hyr⟩⟩

end TileMap

namespace TileMap

/-! ### The grid of the initial viewport -/

theorem initialViewport_tileZoom : tileZoom initialViewport = 4 := by
  unfold tileZoom initialViewport
  simp

theorem initialViewport_scale : scale initialViewport = 1 := by
  unfold scale
  rw [initialViewport_tileZoom]
  simp [initialViewport]

theorem two_rpow_four : (2 : ℝ) ^ (((4 : ℤ) : ℝ)) = 16 := by
  have : (((4 : ℤ) : ℝ)) = ((4 : ℕ) : ℝ) := by norm_num
  rw [this, Real.rpow_natCast]; norm_num

theorem exp_072_lt : Real.exp (72 / 100) < 2.06 := by
  have h := Real.exp_bound' (x := 72 / 100) (by norm_num) (by norm_num) (n := 4) (by norm_num)
  rw [Finset.sum_range_succ, Finset.sum_range_succ, Finset.sum_range_succ,
    Finset.sum_range_one] at h
  have f1 : Nat.factorial 1 = 1 := rfl
  have f2 : Nat.factorial 2 = 2 := rfl
  have f3 : Nat.factorial 3 = 6 := rfl
  have f4 : Nat.factorial 4 = 24 := rfl
  rw [Nat.factorial_zero, f1, f2, f3, f4] at h
  norm_num at h
  linarith

theorem lt_exp_085 : (2.25 : ℝ) < Real.exp (85 / 100) := by
  have h := Real.sum_le_exp_of_nonneg (x := 85 / 100) (by norm_num) 4
  rw [Finset.sum_range_succ, Finset.sum_range_succ, Finset.sum_range_succ,
    Finset.sum_range_one] at h
  have f1 : Nat.factorial 1 = 1 := rfl
  have f2 : Nat.factorial 2 = 2 := rfl
  have f3 : Nat.factorial 3 = 6 := rfl
  rw [Nat.factorial_zero, f1, f2, f3] at h
  norm_num at h
  linarith

/-- Bounds on the Mercator ordinate of the latitude 39.8283 degrees. -/
theorem mercator_initial_bounds :
    (72 / 100 : ℝ) < Real.log (Real.tan (39.8283 * Real.pi / 180)
        + 1 / Real.cos (39.8283 * Real.pi / 180))
    ∧ Real.log (Real.tan (39.8283 * Real.pi / 180)
        + 1 / Real.cos (39.8283 * Real.pi / 180)) < 85 / 100 := by
  set φ : ℝ := 39.8283 * Real.pi / 180 with hφ
  have hπ1 := Real.pi_gt_d4
  have hπ2 := Real.pi_lt_d4
  have ha : (0.6951 : ℝ) ≤ φ := by rw [hφ]; linarith
  have hb : φ ≤ (0.6952 : ℝ) := by rw [hφ]; linarith
  have h0 : (0 : ℝ) ≤ φ := by linarith
  have habs : |φ| ≤ 1 := by rw [abs_of_nonneg h0]; linarith
  have hφ2a : (0.6951 : ℝ) ^ 2 ≤ φ ^ 2 := pow_le_pow_left₀ (by norm_num) ha 2
  have hφ2b : φ ^ 2 ≤ (0.6952 : ℝ) ^ 2 := pow_le_pow_left₀ h0 hb 2
  have hφ3a : (0.6951 : ℝ) ^ 3 ≤ φ ^ 3 := pow_le_pow_left₀ (by norm_num) ha 3
  have hφ3b : φ ^ 3 ≤ (0.6952 : ℝ) ^ 3 := pow_le_pow_left₀ h0 hb 3
  have hφ4b : φ ^ 4 ≤ (0.6952 : ℝ) ^ 4 := pow_le_pow_left₀ h0 hb 4
  have hsin := abs_le.mp (Real.sin_bound habs)
  have hcos := abs_le.mp (Real.cos_bound habs)
  rw [abs_of_nonneg h0] at hsin hcos
  have hs1 : (0.6269 : ℝ) ≤ Real.sin φ := by
    have := hsin.1
    norm_num at hφ3b hφ4b ⊢
    linarith
  have hs2 : Real.sin φ ≤ (0.6514 : ℝ) := by
    have := hsin.2
    norm_num at hφ3a hφ4b ⊢
    linarith
  have hc1 : (0.7461 : ℝ) ≤ Real.cos φ := by
    have := hcos.1
    norm_num at hφ2b hφ4b ⊢
    linarith
  have hc2 : Real.cos φ ≤ (0.7706 : ℝ) := by
    have := hcos.2
    norm_num at hφ2a hφ4b ⊢
    linarith
  have hcpos : 0 < Real.cos φ := by linarith
  have hu : Real.tan φ + 1 / Real.cos φ = (Real.sin φ + 1) / Real.cos φ := by
    rw [Real.tan_eq_sin_div_cos]; field_simp
  have hu1 : (2.06 : ℝ) < (Real.sin φ + 1) / Real.cos φ := by
    rw [lt_div_iff₀ hcpos]; linarith
  have hu2 : (Real.sin φ + 1) / Real.cos φ < (2.25 : ℝ) := by
    rw [div_lt_iff₀ hcpos]; linarith
  have hupos : 0 < (Real.sin φ + 1) / Real.cos φ := lt_trans (by norm_num) hu1
  have he1 := exp_072_lt
  have he2 := lt_exp_085
  rw [hu]
  constructor
  · rw [Real.lt_log_iff_exp_lt hupos]; exact lt_trans he1 hu1
  · rw [Real.log_lt_iff_lt_exp hupos]; exact lt_trans hu2 he2

/-- The center of the initial viewport in world pixels at zoom 4. -/
theorem initialViewport_center :
    926 < (latLngToPx initialViewport.lat initialViewport.lng ((4 : ℤ) : ℝ)).x
    ∧ (latLngToPx initialViewport.lat initialViewport.lng ((4 : ℤ) : ℝ)).x < 927
    ∧ 1492 < (latLngToPx initialViewport.lat initialViewport.lng ((4 : ℤ) : ℝ)).y
    ∧ (latLngToPx initialViewport.lat initialViewport.lng ((4 : ℤ) : ℝ)).y < 1580 := by
  obtain ⟨hl1, hl2⟩ := mercator_initial_bounds
  have hπ1 := Real.pi_gt_d4
  have hπ2 := Real.pi_lt_d4
  have hπ0 := Real.pi_pos
  simp only [latLngToPx, initialViewport, two_rpow_four, TILE_SIZE]
  refine ⟨by norm_num, by norm_num, ?_, ?_⟩
  · have h : Real.log (Real.tan (39.8283 * Real.pi / 180)
        + 1 / Real.cos (39.8283 * Real.pi / 180)) / Real.pi < 556 / 2048 := by
      rw [div_lt_iff₀ hπ0]; linarith
    linarith
  · have h : 468 / 2048 < Real.log (Real.tan (39.8283 * Real.pi / 180)
        + 1 / Real.cos (39.8283 * Real.pi / 180)) / Real.pi := by
      rw [lt_div_iff₀ hπ0]; linarith
    linarith

/-- The tile loop of the initial viewport on an 800 by 600 surface emits the columns 2 to 5
and the rows 4 to 7. -/
theorem initialViewport_tile_indices (x y : ℤ) :
    (∃ t ∈ tiles initialViewport 800 600, t.x = x ∧ t.y = y)
      ↔ (2 ≤ x ∧ x ≤ 5) ∧ (4 ≤ y ∧ y ≤ 7) := by
  obtain ⟨hx1, hx2, hy1, hy2⟩ := initialViewport_center
  simp only [Int.cast_ofNat] at hx1 hx2 hy1 hy2
  have htl : viewportTlPxTile initialViewport 800 600
      = { x := (latLngToPx initialViewport.lat initialViewport.lng ((4 : ℤ) : ℝ)).x - 400
          y := (latLngToPx initialViewport.lat initialViewport.lng ((4 : ℤ) : ℝ)).y - 300 } := by
    unfold viewportTlPxTile
    rw [initialViewport_tileZoom, initialViewport_scale]
    norm_num
  have hsx : startTileX initialViewport 800 600 = 2 := by
    unfold startTileX
    rw [htl, Int.floor_eq_iff, le_div_iff₀ TILE_SIZE_pos, div_lt_iff₀ TILE_SIZE_pos]
    constructor <;> norm_num [TILE_SIZE] <;> linarith
  have hex : endTileX initialViewport 800 600 = 6 := by
    unfold endTileX
    rw [htl, initialViewport_scale, Int.ceil_eq_iff, lt_div_iff₀ TILE_SIZE_pos,
      div_le_iff₀ TILE_SIZE_pos]
    constructor <;> norm_num [TILE_SIZE] <;> linarith
  have hsy : startTileY initialViewport 800 600 = 4 := by
    unfold startTileY
    rw [htl, Int.floor_eq_iff, le_div_iff₀ TILE_SIZE_pos, div_lt_iff₀ TILE_SIZE_pos]
    constructor <;> norm_num [TILE_SIZE] <;> linarith
  have hey : endTileY initialViewport 800 600 = 8 := by
    unfold endTileY
    rw [htl, initialViewport_scale, Int.ceil_eq_iff, lt_div_iff₀ TILE_SIZE_pos,
      div_le_iff₀ TILE_SIZE_pos]
    constructor <;> norm_num [TILE_SIZE] <;> linarith
  rw [tile_index_emitted_iff, hsx, hex, hsy, hey]
  omega

/-- Witness of C15 at the initial viewport on an 800 by 600 surface: the center of the
surface lies in the screen square of an emitted tile, and the emitted tiles are those of
the columns 2 to 5 and the rows 4 to 7. -/
theorem tiles_cover_witness :
    (2 : ℝ) ≤ initialViewport.zoom ∧ initialViewport.zoom ≤ 12
    ∧ (∃ t ∈ tiles initialViewport 800 600,
        (t.left ≤ 400 ∧ 400 ≤ t.left + t.size) ∧ (t.top ≤ 300 ∧ 300 ≤ t.top + t.size))
    ∧ (∀ x y : ℤ, (∃ t ∈ tiles initialViewport 800 600, t.x = x ∧ t.y = y)
        ↔ (2 ≤ x ∧ x ≤ 5) ∧ (4 ≤ y ∧ y ≤ 7)) := by
  have hz1 : (2 : ℝ) ≤ initialViewport.zoom := by norm_num [initialViewport]
  have hz2 : initialViewport.zoom ≤ 12 := by norm_num [initialViewport]
  exact ⟨hz1, hz2,
    (tiles_cover initialViewport 800 600 hz1 hz2 (by norm_num) (by norm_num)).2.2.2 400 300
      (by norm_num) (by norm_num) (by norm_num) (by norm_num),
    initialViewport_tile_indices⟩

end TileMap

namespace TileMap

/-! ### Scenarios of the interaction -/

/-- Witness of C13 on the initial state: a press and release at (100, 100) followed by a
click selects the marker, and a press, a move of 10 pixels to the right, a release and a
click does not. -/
theorem drag_tap_classification_witness :
    handleMarkerClick (run initialState [.startDrag 100 100, .endDrag]) "A" = some "A"
    ∧ handleMarkerClick
        (run initialState [.startDrag 100 100, .drag (100 + 10) (100 + 0), .endDrag]) "A"
        = none :=
  ⟨drag_tap_classification.2.2.2.2.2.1 initialState 100 100 "A",
   drag_tap_classification.2.2.2.2.2.2 initialState 100 100 10 0 "A" (by norm_num)⟩

/-- Witness of C18 at the initial viewport on an 800 by 600 surface, for the point at
latitude 40 and longitude -88. -/
theorem marker_registered_with_tiles_witness :
    (-90 : ℝ) < initialViewport.lat ∧ initialViewport.lat < 90
    ∧ (latLngToPx 40 (-88) initialViewport.zoom).x - (viewportTlPx initialViewport 800 600).x
        = ((latLngToPx 40 (-88) (tileZoom initialViewport)).x
            - (viewportTlPxTile initialViewport 800 600).x) * scale initialViewport := by
  have h1 : (-90 : ℝ) < initialViewport.lat := by norm_num [initialViewport]
  have h2 : initialViewport.lat < 90 := by norm_num [initialViewport]
  exact ⟨h1, h2,
    (marker_registered_with_tiles initialViewport 800 600 40 (-88) h1 h2
      (by norm_num) (by norm_num)).1⟩

end TileMap
